import Mathlib

/-!
Verification of the semantic-comparison core of `npm-needs-publish`.

The development shallowly embeds the TypeScript sources:
  * `src/comparators/version-specifier.ts` (specifier parsing / comparison),
  * `src/comparators/dependency.ts` (dependency differ),
  * `src/comparators/package-json.ts` (manifest differ),
  * `src/comparators/file-content.ts` (file-tree differ),
  * `src/needs-publish.ts` (orchestrator decision logic).

External npm libraries (`semver`, `npm-package-arg`) are not part of this
repository; following the specification they are treated as injected
capabilities: every call the source makes into them is represented by an
oracle record field, with `Option` results standing for calls that may
throw.  Concrete miniature instantiations of the oracles, faithful to the
documented behaviour of the real libraries on the inputs used here, allow
the theorems to be evaluated on concrete data.

JavaScript data reaching the comparators is modelled by `JsValue`; missing
object fields are `JsValue.undefV`, and JavaScript truthiness is modelled
explicitly wherever the source relies on it.
-/

namespace NpmNeedsPublish

/-- Model of a JavaScript value as consumed by the comparators.  Numbers are
modelled as integers, which covers every manifest the comparators meet. -/
inductive JsValue where
  | undefV : JsValue
  | nullV : JsValue
  | bool : Bool → JsValue
  | num : Int → JsValue
  | str : String → JsValue
  | arr : List JsValue → JsValue
  | obj : List (String × JsValue) → JsValue

/-- JavaScript `typeof`. -/
def jsTypeof : JsValue → String
  | .undefV => "undefined"
  | .nullV => "object"
  | .bool _ => "boolean"
  | .num _ => "number"
  | .str _ => "string"
  | .arr _ => "object"
  | .obj _ => "object"

/-- JavaScript strict equality `===`.  Distinct object/array values compare
by reference in JavaScript; in this value model that is rendered as
`false`, which is indistinguishable from the source's behaviour because
`deepEqual` re-examines objects structurally anyway. -/
def strictEq : JsValue → JsValue → Bool
  | .undefV, .undefV => true
  | .nullV, .nullV => true
  | .bool a, .bool b => a == b
  | .num a, .num b => a == b
  | .str a, .str b => a == b
  | _, _ => false

/-- `x == null` in JavaScript (matches both `null` and `undefined`). -/
def isNullish : JsValue → Bool
  | .undefV => true
  | .nullV => true
  | _ => false

/-- JavaScript truthiness of a value. -/
def jsTruthy : JsValue → Bool
  | .undefV => false
  | .nullV => false
  | .bool b => b
  | .num n => n != 0
  | .str s => s ≠ ""
  | .arr _ => true
  | .obj _ => true

/-- ASCII whitespace, for the string-trim helper. -/
def wsChar (c : Char) : Bool :=
  c = ' ' || c = '\t' || c = '\n' || c = '\r'

/-- JavaScript `s.trim()` (character-list implementation, so that concrete
evaluations reduce). -/
def trimStr (s : String) : String :=
  ⟨((s.data.dropWhile wsChar).reverse.dropWhile wsChar).reverse⟩

/-- JavaScript `s.startsWith(p)`. -/
def startsWithStr (s p : String) : Bool :=
  p.data.isPrefixOf s.data

/-- JavaScript `s.slice(n)` for a non-negative character index. -/
def dropStr (s : String) (n : Nat) : String :=
  ⟨s.data.drop n⟩

/-- JavaScript `s.split(sep)` for a single-character separator. -/
def splitOnChar (cs : List Char) (sep : Char) : List (List Char) :=
  match cs with
  | [] => [[]]
  | c :: rest =>
    if c = sep then [] :: splitOnChar rest sep
    else match splitOnChar rest sep with
      | g :: gs => (c :: g) :: gs
      | [] => [[c]]

/-- The numeric value of a decimal digit character. -/
def digitVal (c : Char) : Option Nat :=
  if '0' ≤ c ∧ c ≤ '9' then some (c.toNat - 48) else none

/-- Parse a non-empty all-digit character list as a natural number. -/
def parseNatChars (cs : List Char) : Option Nat :=
  match cs with
  | [] => none
  | _ => cs.foldl (fun acc c =>
      match acc, digitVal c with
      | some n, some d => some (n * 10 + d)
      | _, _ => none) (some 0)

/-- Property lookup on an object field list; a missing key yields
`undefined`, as in JavaScript. -/
def jsLookup (fields : List (String × JsValue)) (key : String) : JsValue :=
  match fields.lookup key with
  | some v => v
  | none => .undefV

/-- Field list of an array as a JavaScript object: keys are the decimal
index strings. -/
def arrFields (xs : List JsValue) : List (String × JsValue) :=
  (List.range xs.length).zip xs |>.map fun p => (toString p.1, p.2)

mutual

/-- `deepEqual` from `src/comparators/package-json.ts`: strict equality,
null/undefined handling, `typeof` gate, elementwise arrays, then key-by-key
object comparison (key lists must have equal length; values of the first
object's keys are compared against the second's, missing keys reading as
`undefined`). -/
def deepEqual (a b : JsValue) : Bool :=
  if strictEq a b then true
  else if isNullish a || isNullish b then strictEq a b
  else if jsTypeof a ≠ jsTypeof b then false
  else match a, b with
    | .arr xs, .arr ys =>
        xs.length == ys.length && deepEqualElems xs ys
    | .arr xs, .obj g =>
        xs.length == g.length && deepEqualIndexed xs g 0
    | .obj f, .arr ys =>
        f.length == ys.length && deepEqualFields f (arrFields ys)
    | .obj f, .obj g =>
        f.length == g.length && deepEqualFields f g
    | _, _ => false
termination_by structural a

/-- Elementwise comparison of two arrays of equal length. -/
def deepEqualElems : List JsValue → List JsValue → Bool
  | [], _ => true
  | _ :: _, [] => true
  | x :: xs, y :: ys => deepEqual x y && deepEqualElems xs ys
termination_by structural l => l

/-- Key-by-key comparison driven by the first object's fields. -/
def deepEqualFields : List (String × JsValue) → List (String × JsValue) → Bool
  | [], _ => true
  | (k, v) :: rest, g => deepEqual v (jsLookup g k) && deepEqualFields rest g
termination_by structural l => l

/-- Array-versus-object comparison: the array's index keys drive the
lookup into the object. -/
def deepEqualIndexed : List JsValue → List (String × JsValue) → Nat → Bool
  | [], _, _ => true
  | x :: xs, g, i => deepEqual x (jsLookup g (toString i)) && deepEqualIndexed xs g (i + 1)
termination_by structural l _ _ => l

end

/-! ## Version specifier model (`src/comparators/version-specifier.ts`) -/

/-- `VersionSpecifierType` from `src/types.ts`. -/
inductive VersionSpecifierType where
  | exact | caret | tilde | range | xRange | hyphen | or
  | git | file | alias | workspace | tag | url
  deriving Repr, DecidableEq

/-- The `relation` enumeration of `SpecifierComparison` from `src/types.ts`. -/
inductive SpecifierRelation where
  | identical | normalizedEqual | semanticallyEqual | sameMajorCaret | sameMinorTilde
  | narrowed | widened | partiallyOverlapping | disjoint | incompatibleTypes | unknownType
  deriving Repr, DecidableEq

/-- `SpecifierComparison` from `src/types.ts`. -/
structure SpecifierComparison where
  equivalent : Bool
  relation : SpecifierRelation
  detail : Option String := none
  deriving Repr, DecidableEq

/-- `SemanticChange` from `src/types.ts`. -/
inductive SemanticChange where
  | none | equivalent | narrowed | widened | incompatible
  deriving Repr, DecidableEq

/-- The `gitInfo` payload of a parsed git specifier. -/
structure GitInfo where
  url : String
  committish : Option String := none
  semverRange : Option String := none
  deriving Repr, DecidableEq

/-- `ParsedVersionSpecifier` from `src/types.ts`; recursive through the
alias target. -/
inductive ParsedVersionSpecifier where
  | mk (type : VersionSpecifierType) (raw normalized : String)
      (gitInfo : Option GitInfo) (aliasTarget : Option ParsedVersionSpecifier)
      (workspaceRange : Option String)

def ParsedVersionSpecifier.type : ParsedVersionSpecifier → VersionSpecifierType
  | .mk t _ _ _ _ _ => t

def ParsedVersionSpecifier.raw : ParsedVersionSpecifier → String
  | .mk _ r _ _ _ _ => r

def ParsedVersionSpecifier.normalized : ParsedVersionSpecifier → String
  | .mk _ _ n _ _ _ => n

def ParsedVersionSpecifier.gitInfo : ParsedVersionSpecifier → Option GitInfo
  | .mk _ _ _ g _ _ => g

def ParsedVersionSpecifier.aliasTarget : ParsedVersionSpecifier → Option ParsedVersionSpecifier
  | .mk _ _ _ _ a _ => a

def ParsedVersionSpecifier.workspaceRange : ParsedVersionSpecifier → Option String
  | .mk _ _ _ _ _ w => w

/-- Result shapes of `npm-package-arg`'s `npa.resolve` as the parser
consumes them (`parsed.type` together with the fields the source reads).
`Option String` fields model values that may be `null`/`undefined`. -/
inductive NpaResult where
  | version (fetchSpec : Option String)
  | range (fetchSpec : Option String)
  | tag (fetchSpec : Option String)
  | git (fetchSpec : Option String) (saveSpec : Option String)
      (gitCommittish : Option String) (gitRange : Option String)
  | remote (fetchSpec : Option String)
  | file (saveSpec : Option String)
  | directory (saveSpec : Option String)
  | alias (subSpecRaw : Option String)
  | other

/-- The `npm-package-arg` library as an injected capability.  `resolve`
takes the spec and the optional `where` directory; `none` models a thrown
exception. -/
structure NpaOracle where
  resolve : String → Option String → Option NpaResult

/-- The `semver` library as an injected capability.
`rangeRange s` is `(new semver.Range(s, {loose:true})).range` (`none` models
a constructor throw; note the real `.range` is the empty string for `*`).
`validVersion s` is the truthiness of `semver.valid(s)`.
`minVersion s` is `semver.minVersion(new Range(s))` as a `major.minor.patch`
triple (`none` models `null`).
`subsetQ a b` is `semver.subset(Range a, Range b, {includePrerelease:true})`
(`none` models a throw).  `intersectsQ a b` is `(Range a).intersects (Range b)`.
All are deterministic functions of the spec strings, as the library is. -/
structure SemverOracle where
  rangeRange : String → Option String
  validVersion : String → Bool
  minVersion : String → Option (Nat × Nat × Nat)
  subsetQ : String → String → Option Bool
  intersectsQ : String → String → Bool

/-- JavaScript `x || spec` for a possibly-absent string `x` (an absent or
empty string falls back to `spec`). -/
def jsOrStr (x : Option String) (spec : String) : String :=
  match x with
  | some s => if s = "" then spec else s
  | none => spec

/-- JavaScript `x || undefined` for a possibly-absent string (an empty
string collapses to `undefined`). -/
def jsOrUndef (x : Option String) : Option String :=
  match x with
  | some s => if s = "" then none else some s
  | none => none

/-- Index of the first occurrence of `pat` in `hay` (JavaScript
`String.prototype.indexOf`, as `Option`). -/
def subFindIdx : List Char → List Char → Option Nat
  | hay, pat =>
    if pat.isPrefixOf hay then some 0
    else match hay with
      | [] => none
      | _ :: t => (subFindIdx t pat).map (· + 1)

/-- `haystack.includes(needle)` on strings. -/
def strIncludes (hay pat : String) : Bool :=
  (subFindIdx hay.toList pat.toList).isSome

/-- `detectRangeSubtype` from `src/comparators/version-specifier.ts`. -/
def detectRangeSubtype (O : SemverOracle) (spec : String) : VersionSpecifierType :=
  let trimmed := trimStr spec
  if startsWithStr trimmed "^" then .caret
  else if startsWithStr trimmed "~" then .tilde
  else if strIncludes trimmed " - " then .hyphen
  else if strIncludes trimmed "||" then .or
  else if trimmed.toList.any (fun c => c = 'x' || c = 'X' || c = '*') || trimmed = "" then .xRange
  else if O.validVersion trimmed then .exact
  else .range

/-- `extractMajorMinor` from `src/comparators/version-specifier.ts`:
build the range (failure yields `null`), then read `minVersion`'s major and
minor components. -/
def extractMajorMinor (O : SemverOracle) (spec : String) : Option (Nat × Nat) :=
  match O.rangeRange spec with
  | none => none
  | some _ =>
    match O.minVersion spec with
    | none => none
    | some v => some (v.1, v.2.1)

/-- The shared fallback of `parseVersionSpecifier`: try to interpret the
spec directly as a semver range, else degrade to the `tag` category. -/
def parseSemverFallback (O : SemverOracle) (spec : String) : ParsedVersionSpecifier :=
  match O.rangeRange spec with
  | some r => .mk (detectRangeSubtype O spec) spec (if r = "" then spec else r) none none none
  | none => .mk .tag spec spec none none none

/-- The body of `parseVersionSpecifier` from
`src/comparators/version-specifier.ts`, with the recursive call on an
alias sub-spec abstracted as `recur` (`none` stands for a recursion the
fuel wrapper below no longer allows; the result is then the alias shape
the source produces when `npa` supplies no sub-spec). -/
def parseStep (O : SemverOracle) (N : NpaOracle)
    (recur : String → Option String → Option ParsedVersionSpecifier)
    (spec : String) (whereDir : Option String) : ParsedVersionSpecifier :=
  if startsWithStr spec "workspace:" then
    let workspaceRange := dropStr spec 10
    .mk .workspace spec spec none none (some (if workspaceRange = "" then "*" else workspaceRange))
  else if spec = "" then
    .mk .xRange spec "*" none none none
  else
    match N.resolve spec whereDir with
    | some (.version fetchSpec) => .mk .exact spec (jsOrStr fetchSpec spec) none none none
    | some (.range fetchSpec) =>
        let rangeType := detectRangeSubtype O spec
        let normalized :=
          match O.rangeRange (jsOrStr fetchSpec spec) with
          | some r => if r = "" then spec else r
          | none => spec
        .mk rangeType spec normalized none none none
    | some (.tag fetchSpec) => .mk .tag spec (jsOrStr fetchSpec spec) none none none
    | some (.git fetchSpec saveSpec gitCommittish gitRange) =>
        .mk .git spec (jsOrStr saveSpec spec)
          (some ⟨fetchSpec.getD "", jsOrUndef gitCommittish, jsOrUndef gitRange⟩) none none
    | some (.remote fetchSpec) => .mk .url spec (jsOrStr fetchSpec spec) none none none
    | some (.file saveSpec) => .mk .file spec (jsOrStr saveSpec spec) none none none
    | some (.directory saveSpec) => .mk .file spec (jsOrStr saveSpec spec) none none none
    | some (.alias subSpecRaw) =>
        match subSpecRaw with
        | some sub =>
          match recur sub whereDir with
          | some target => .mk .alias spec spec none (some target) none
          | none => .mk .alias spec spec none none none
        | none => .mk .alias spec spec none none none
    | some .other => parseSemverFallback O spec
    | none => parseSemverFallback O spec

/-- `parseVersionSpecifier` from `src/comparators/version-specifier.ts`.
`fuel` bounds the alias recursion, which the source leaves unbounded (the
specification flags that as an open defect). -/
def parseVersionSpecifier (O : SemverOracle) (N : NpaOracle) :
    Nat → String → Option String → ParsedVersionSpecifier
  | 0, spec, whereDir => parseStep O N (fun _ _ => none) spec whereDir
  | fuel + 1, spec, whereDir =>
      parseStep O N (fun sub w => some (parseVersionSpecifier O N fuel sub w)) spec whereDir

/-- `getSpecCategory` from `src/comparators/version-specifier.ts`. -/
def getSpecCategory : VersionSpecifierType → String
  | .exact | .caret | .tilde | .range | .xRange | .hyphen | .or => "semver"
  | .git => "git"
  | .file => "file"
  | .tag => "tag"
  | .url => "url"
  | .alias => "alias"
  | .workspace => "workspace"

/-- `compareSemverSpecs` from `src/comparators/version-specifier.ts`. -/
def compareSemverSpecs (O : SemverOracle) (specA specB : String) : SpecifierComparison :=
  match O.rangeRange specA, O.rangeRange specB with
  | some normalizedA, some normalizedB =>
    if normalizedA = normalizedB then ⟨true, .normalizedEqual, none⟩
    else
      let caretHit :=
        if startsWithStr (trimStr specA) "^" && startsWithStr (trimStr specB) "^" then
          match extractMajorMinor O specA, extractMajorMinor O specB with
          | some boundsA, some boundsB => boundsA.1 == boundsB.1
          | _, _ => false
        else false
      if caretHit then ⟨true, .sameMajorCaret, none⟩
      else
        let tildeHit :=
          if startsWithStr (trimStr specA) "~" && startsWithStr (trimStr specB) "~" then
            match extractMajorMinor O specA, extractMajorMinor O specB with
            | some boundsA, some boundsB => boundsA.1 == boundsB.1 && boundsA.2 == boundsB.2
            | _, _ => false
          else false
        if tildeHit then ⟨true, .sameMinorTilde, none⟩
        else
          let aSubsetB := (O.subsetQ specA specB).getD false
          let bSubsetA := (O.subsetQ specB specA).getD false
          if aSubsetB && bSubsetA then ⟨true, .semanticallyEqual, none⟩
          else if bSubsetA then ⟨false, .narrowed, some "new range is subset of old"⟩
          else if aSubsetB then ⟨false, .widened, some "old range is subset of new"⟩
          else if O.intersectsQ specA specB then ⟨false, .partiallyOverlapping, none⟩
          else ⟨false, .disjoint, none⟩
  | _, _ => ⟨false, .incompatibleTypes, none⟩

/-- `compareGitSpecs` from `src/comparators/version-specifier.ts`. -/
def compareGitSpecs (O : SemverOracle) (parsedA parsedB : ParsedVersionSpecifier) : SpecifierComparison :=
  match parsedA.gitInfo, parsedB.gitInfo with
  | some gitA, some gitB =>
    if gitA.url ≠ gitB.url then ⟨false, .disjoint, some "Different git URLs"⟩
    else
      match gitA.committish, gitB.committish with
      | some ca, some cb =>
          if ca = cb then ⟨true, .identical, none⟩
          else ⟨false, .disjoint, some "Different committish"⟩
      | _, _ =>
        match gitA.semverRange, gitB.semverRange with
        | some ra, some rb => compareSemverSpecs O ra rb
        | _, _ => ⟨false, .incompatibleTypes, none⟩
  | _, _ => ⟨false, .incompatibleTypes, none⟩

/-- `compareFileSpecs` from `src/comparators/version-specifier.ts`. -/
def compareFileSpecs (parsedA parsedB : ParsedVersionSpecifier) : SpecifierComparison :=
  if parsedA.normalized = parsedB.normalized then ⟨true, .identical, none⟩
  else ⟨false, .disjoint, some "Different file paths"⟩

/-- `compareWorkspaceSpecs` from `src/comparators/version-specifier.ts`. -/
def compareWorkspaceSpecs (parsedA parsedB : ParsedVersionSpecifier) : SpecifierComparison :=
  if parsedA.type ≠ .workspace ∨ parsedB.type ≠ .workspace then
    ⟨false, .incompatibleTypes, none⟩
  else
    let rangeA := (parsedA.workspaceRange).getD "*"
    let rangeB := (parsedB.workspaceRange).getD "*"
    if rangeA = rangeB then ⟨true, .identical, none⟩
    else ⟨false, .disjoint, some "Different workspace specifiers"⟩

/-- `compareTagSpecs` from `src/comparators/version-specifier.ts`. -/
def compareTagSpecs (parsedA parsedB : ParsedVersionSpecifier) : SpecifierComparison :=
  if parsedA.normalized = parsedB.normalized then ⟨true, .identical, none⟩
  else ⟨false, .disjoint, some "Different tags"⟩

/-- `compareUrlSpecs` from `src/comparators/version-specifier.ts`. -/
def compareUrlSpecs (parsedA parsedB : ParsedVersionSpecifier) : SpecifierComparison :=
  if parsedA.normalized = parsedB.normalized then ⟨true, .identical, none⟩
  else ⟨false, .disjoint, some "Different URLs"⟩

/-- `compareAliasSpecs` from `src/comparators/version-specifier.ts`,
parameterised by the recursive comparator it calls back into. -/
def compareAliasSpecs (recur : String → String → SpecifierComparison)
    (parsedA parsedB : ParsedVersionSpecifier) : SpecifierComparison :=
  match parsedA.type, parsedB.type, parsedA.aliasTarget, parsedB.aliasTarget with
  | .alias, .alias, some ta, some tb => recur ta.raw tb.raw
  | _, _, _, _ =>
    match parsedA.type, parsedA.aliasTarget with
    | .alias, some ta => recur ta.raw parsedB.raw
    | _, _ =>
      match parsedB.type, parsedB.aliasTarget with
      | .alias, some tb => recur parsedA.raw tb.raw
      | _, _ => ⟨false, .incompatibleTypes, none⟩

/-- The body of `compareVersionSpecifiers` from
`src/comparators/version-specifier.ts`, with the recursive alias
comparison abstracted as `recur`. -/
def compareOnce (O : SemverOracle) (N : NpaOracle) (pfuel : Nat)
    (recur : String → String → SpecifierComparison)
    (specA specB : String) (whereDir : Option String) : SpecifierComparison :=
  if specA = specB then ⟨true, .identical, none⟩
  else
    let parsedA := parseVersionSpecifier O N pfuel specA whereDir
    let parsedB := parseVersionSpecifier O N pfuel specB whereDir
    if parsedA.type = .workspace || parsedB.type = .workspace then
      compareWorkspaceSpecs parsedA parsedB
    else if parsedA.type = .alias || parsedB.type = .alias then
      compareAliasSpecs recur parsedA parsedB
    else if getSpecCategory parsedA.type ≠ getSpecCategory parsedB.type then
      ⟨false, .incompatibleTypes, none⟩
    else
      match parsedA.type with
      | .exact | .caret | .tilde | .range | .xRange | .hyphen | .or =>
          compareSemverSpecs O specA specB
      | .git => compareGitSpecs O parsedA parsedB
      | .file => compareFileSpecs parsedA parsedB
      | .tag => compareTagSpecs parsedA parsedB
      | .url => compareUrlSpecs parsedA parsedB
      | _ => ⟨false, .unknownType, none⟩

/-- `compareVersionSpecifiers` from `src/comparators/version-specifier.ts`.
`pfuel` bounds parse-time alias nesting and `cfuel` bounds the alias
comparison recursion (unbounded in the source); exhausted comparison fuel
yields the `incompatible-types` result the source's alias branch falls
back to when a target is missing. -/
def compareVersionSpecifiers (O : SemverOracle) (N : NpaOracle) (pfuel : Nat) :
    Nat → String → String → Option String → SpecifierComparison
  | 0, specA, specB, whereDir =>
      compareOnce O N pfuel (fun _ _ => ⟨false, .incompatibleTypes, none⟩) specA specB whereDir
  | cfuel + 1, specA, specB, whereDir =>
      compareOnce O N pfuel
        (fun a b => compareVersionSpecifiers O N pfuel cfuel a b whereDir) specA specB whereDir

/-- `SemanticChangeOptions` from `src/comparators/version-specifier.ts`. -/
structure SemanticChangeOptions where
  treatNarrowingAsEquivalent : Option Bool := none

/-- `comparisonToSemanticChange` from `src/comparators/version-specifier.ts`. -/
def comparisonToSemanticChange (comparison : SpecifierComparison)
    (options : Option SemanticChangeOptions) : SemanticChange :=
  let treatNarrowingAsEquivalent :=
    (options.bind (·.treatNarrowingAsEquivalent)) ≠ some false
  if comparison.equivalent then
    if comparison.relation = .identical then .none else .equivalent
  else
    match comparison.relation with
    | .narrowed => if treatNarrowingAsEquivalent then .equivalent else .narrowed
    | .widened => .widened
    | _ => .incompatible

/-! ## Dependency differ (`src/comparators/dependency.ts`) -/

/-- The dependency classes handled by the differ (`SIGNIFICANT_DEP_TYPES`). -/
inductive DepType where
  | dependencies | peerDependencies | optionalDependencies | bundledDependencies
  deriving Repr, DecidableEq

/-- The manifest field name of a dependency class. -/
def DepType.fieldName : DepType → String
  | .dependencies => "dependencies"
  | .peerDependencies => "peerDependencies"
  | .optionalDependencies => "optionalDependencies"
  | .bundledDependencies => "bundledDependencies"

/-- `SIGNIFICANT_DEP_TYPES` from `src/comparators/dependency.ts`. -/
def significantDepTypes : List DepType :=
  [.dependencies, .peerDependencies, .optionalDependencies, .bundledDependencies]

inductive DepAction where
  | added | removed | changed
  deriving Repr, DecidableEq

/-- `DependencyChange` from `src/types.ts`. -/
structure DependencyChange where
  name : String
  type : DepType
  action : DepAction
  oldSpec : Option String := none
  newSpec : Option String := none
  semanticChange : SemanticChange
  deriving Repr, DecidableEq

/-- `DependencyComparison` from `src/types.ts`. -/
structure DependencyComparison where
  hasChanges : Bool
  changes : List DependencyChange
  significantChanges : List DependencyChange
  deriving Repr, DecidableEq

/-- `DependencyCompareOptions` from `src/types.ts`. -/
structure DependencyCompareOptions where
  includeOptionalDeps : Option Bool := none
  treatNarrowingAsEquivalent : Option Bool := none

/-- A manifest (`PackageJson`) as the comparators consume it: a JavaScript
object's field list.  Keys of a JavaScript object are unique; theorems that
need that fact state it as a hypothesis. -/
def PackageJson := List (String × JsValue)

/-- Reading a source-typed `string` field out of a `JsValue` (the
TypeScript types declare these fields as strings). -/
def asString : JsValue → String
  | .str s => s
  | _ => ""

/-- A dependency map field (`Record<string, string>` in the source types)
as an association list. -/
def depEntries (v : JsValue) : List (String × String) :=
  match v with
  | .obj fields => fields.map fun kv => (kv.1, asString kv.2)
  | _ => []

/-- JavaScript `a || b` on values. -/
def jsOrVal (a b : JsValue) : JsValue :=
  if jsTruthy a then a else b

/-- A bundled-dependencies array field (`string[]` in the source types). -/
def asStringArray : JsValue → List String
  | .arr xs => xs.map asString
  | _ => []

/-- The body of the first loop of `compareDependencyObject` for one local
entry.  A missing or empty registry spec is falsy in JavaScript
(`if (!registrySpec)`), so both report `added`. -/
def depAddedChangedEntry (O : SemverOracle) (N : NpaOracle) (pfuel cfuel : Nat)
    (registryDeps : List (String × String)) (depType : DepType)
    (semanticOpts : Option SemanticChangeOptions) (kv : String × String) :
    Option DependencyChange :=
  match registryDeps.lookup kv.1 with
  | none => some ⟨kv.1, depType, .added, none, some kv.2, .incompatible⟩
  | some registrySpec =>
    if registrySpec = "" then
      some ⟨kv.1, depType, .added, none, some kv.2, .incompatible⟩
    else if kv.2 ≠ registrySpec then
      some ⟨kv.1, depType, .changed, some registrySpec, some kv.2,
        comparisonToSemanticChange
          (compareVersionSpecifiers O N pfuel cfuel registrySpec kv.2 none) semanticOpts⟩
    else none

/-- The added/changed half of `compareDependencyObject`: one pass over the
local map. -/
def depAddedChanged (O : SemverOracle) (N : NpaOracle) (pfuel cfuel : Nat)
    (localDeps registryDeps : List (String × String)) (depType : DepType)
    (semanticOpts : Option SemanticChangeOptions) : List DependencyChange :=
  localDeps.filterMap (depAddedChangedEntry O N pfuel cfuel registryDeps depType semanticOpts)

/-- The body of the second loop of `compareDependencyObject` for one
registry entry (the `in` operator checks presence, not truthiness). -/
def depRemovedEntry (localDeps : List (String × String)) (depType : DepType)
    (kv : String × String) : Option DependencyChange :=
  if localDeps.any (fun lv => lv.1 == kv.1) then none
  else some ⟨kv.1, depType, .removed, some kv.2, none, .incompatible⟩

/-- The removed half of `compareDependencyObject`: names present in the
registry map but absent from the local map. -/
def depRemoved (localDeps registryDeps : List (String × String)) (depType : DepType) :
    List DependencyChange :=
  registryDeps.filterMap (depRemovedEntry localDeps depType)

/-- `compareDependencyObject` from `src/comparators/dependency.ts`. -/
def compareDependencyObject (O : SemverOracle) (N : NpaOracle) (pfuel cfuel : Nat)
    (localDeps registryDeps : List (String × String)) (depType : DepType)
    (semanticOpts : Option SemanticChangeOptions) : List DependencyChange :=
  depAddedChanged O N pfuel cfuel localDeps registryDeps depType semanticOpts
    ++ depRemoved localDeps registryDeps depType

/-- The bundled array of a manifest:
`local.bundledDependencies || local.bundleDependencies || []` (any array,
including the empty one, is truthy). -/
def bundledArray (p : PackageJson) : List String :=
  asStringArray (jsOrVal (jsLookup p "bundledDependencies")
    (jsOrVal (jsLookup p "bundleDependencies") (.arr [])))

/-- `compareBundledDeps` from `src/comparators/dependency.ts`.  The source
materialises each array into a `Record<string, true>` lookup object and
tests `!lookup[name]`; for string entries that is exactly list
membership. -/
def compareBundledDeps (localP registryP : PackageJson) : List DependencyChange :=
  let localBundledArray := bundledArray localP
  let registryBundledArray := bundledArray registryP
  let added := localBundledArray.filterMap fun name =>
    if registryBundledArray.contains name then none
    else some ⟨name, .bundledDependencies, .added, none, none, .incompatible⟩
  let removed := registryBundledArray.filterMap fun name =>
    if localBundledArray.contains name then none
    else some ⟨name, .bundledDependencies, .removed, none, none, .incompatible⟩
  added ++ removed

/-- `compareDependencies` from `src/comparators/dependency.ts`. -/
def compareDependencies (O : SemverOracle) (N : NpaOracle) (pfuel cfuel : Nat)
    (localP registryP : PackageJson) (options : Option DependencyCompareOptions) :
    DependencyComparison :=
  let includeOptional := (options.bind (·.includeOptionalDeps)) ≠ some false
  let depTypes := significantDepTypes.filter fun t =>
    ¬(t = .optionalDependencies ∧ includeOptional = false)
  let semanticOpts : Option SemanticChangeOptions :=
    some ⟨options.bind (·.treatNarrowingAsEquivalent)⟩
  let changes := (depTypes.map fun depType =>
    if depType = .bundledDependencies then
      compareBundledDeps localP registryP
    else
      compareDependencyObject O N pfuel cfuel
        (depEntries (jsLookup localP depType.fieldName))
        (depEntries (jsLookup registryP depType.fieldName))
        depType semanticOpts).flatten
  let significantChanges := changes.filter fun c =>
    c.semanticChange ≠ .equivalent ∧ c.semanticChange ≠ .none
  ⟨decide (0 < significantChanges.length), changes, significantChanges⟩

/-- `getDependencyChangeSummary` from `src/comparators/dependency.ts`. -/
def getDependencyChangeSummary (changes : List DependencyChange) : String :=
  if changes.length = 0 then "No dependency changes"
  else
    let added := changes.filter fun c => c.action = .added
    let removed := changes.filter fun c => c.action = .removed
    let changed := changes.filter fun c => c.action = .changed
    let significant := changes.filter fun c =>
      c.semanticChange ≠ .equivalent ∧ c.semanticChange ≠ .none
    let parts : List String :=
      (if 0 < added.length then [toString added.length ++ " added"] else [])
      ++ (if 0 < removed.length then [toString removed.length ++ " removed"] else [])
      ++ (if 0 < changed.length then
            (let semanticallyChanged := changed.filter fun c =>
              c.semanticChange ≠ .equivalent ∧ c.semanticChange ≠ .none
            let equivalentChanged := changed.filter fun c =>
              c.semanticChange = .equivalent ∨ c.semanticChange = .none
            (if 0 < semanticallyChanged.length then
              [toString semanticallyChanged.length ++ " significantly changed"] else [])
            ++ (if 0 < equivalentChanged.length then
              [toString equivalentChanged.length ++ " equivalent changes"] else []))
          else [])
    "Dependencies: " ++ String.intercalate ", " parts
      ++ " (" ++ toString significant.length ++ " significant)"

/-! ## Manifest differ (`src/comparators/package-json.ts`) -/

inductive Significance where
  | critical | significant | informational
  deriving Repr, DecidableEq

/-- `FieldChange` from `src/types.ts`. -/
structure FieldChange where
  field : String
  oldValue : JsValue
  newValue : JsValue
  significance : Significance

/-- `CompareOptions` from `src/types.ts`. -/
structure CompareOptions where
  includeOptionalDeps : Option Bool := none
  additionalSignificantFields : Option (List String) := none
  ignoreFields : Option (List String) := none
  treatNarrowingAsEquivalent : Option Bool := none

/-- `PackageJsonComparison` from `src/types.ts`. -/
structure PackageJsonComparison where
  hasSignificantChanges : Bool
  fieldChanges : List FieldChange
  dependencyChanges : List DependencyChange
  summary : String

/-- The key list of `SIGNIFICANT_FIELDS`, in declaration order. -/
def significantFieldsList : List String :=
  ["name", "version", "main", "module", "browser", "exports", "types", "typings", "type",
   "bin", "files", "engines", "os", "cpu", "peerDependenciesMeta", "packageManager"]

/-- The key list of `CRITICAL_FIELDS`. -/
def criticalFieldsList : List String :=
  ["name", "version", "main", "module", "exports", "bin", "types", "typings"]

/-- The key list of `NEVER_SIGNIFICANT_FIELDS`. -/
def neverSignificantFieldsList : List String :=
  ["devDependencies", "scripts",
   "repository", "homepage", "bugs", "author", "contributors", "license", "keywords",
   "description", "readme", "readmeFilename",
   "private", "_id", "_from", "_resolved", "_integrity", "_nodeVersion", "_npmVersion",
   "_npmUser", "dist", "gitHead", "_shasum", "_npmOperationalInternal"]

/-- Inserting keys into a JavaScript object one by one: a key already
present keeps its position, a new key is appended. -/
def addKeys (base : List String) : List String → List String
  | [] => base
  | f :: rest => addKeys (if base.contains f then base else base ++ [f]) rest

/-- The key list of the `fieldsToCheck` object built by
`comparePackageJson`: the significant-field keys, then any additional
fields, minus the ignored fields. -/
def buildFieldsToCheck (additional ignore : List String) : List String :=
  (addKeys significantFieldsList additional).filter fun f => ¬ignore.contains f

/-- `getFieldSignificance` from `src/comparators/package-json.ts`. -/
def getFieldSignificance (field : String) (additionalSignificantFields : Option (List String)) :
    Significance :=
  if criticalFieldsList.contains field then .critical
  else if significantFieldsList.contains field then .significant
  else if (additionalSignificantFields.getD []).contains field then .significant
  else .informational

/-- `normalizeExports` from `src/comparators/package-json.ts`. -/
def normalizeExports : JsValue → JsValue
  | .str s => .obj [(".", .str s)]
  | .arr xs => .obj [(".", .arr xs)]
  | v => v

/-- `compareExports` from `src/comparators/package-json.ts` (returns the
`hasSignificantDifference` flag). -/
def compareExports (localExports registryExports : JsValue) : Bool :=
  if isNullish localExports && isNullish registryExports then false
  else if isNullish localExports || isNullish registryExports then true
  else !deepEqual (normalizeExports localExports) (normalizeExports registryExports)

/-- `normalizeBin` from `src/comparators/package-json.ts`.  A scoped
package name without a `/` makes the source index `split('/')[1]` as
`undefined`, which JavaScript coerces to the object key `"undefined"`. -/
def normalizeBin (bin : JsValue) (packageName : String) : JsValue :=
  if isNullish bin then .undefV
  else match bin with
    | .str s =>
        let binName :=
          if startsWithStr packageName "@" then
            ((splitOnChar packageName.data '/').map (fun cs => (⟨cs⟩ : String))).getD 1 "undefined"
          else packageName
        .obj [(binName, .str s)]
    | .obj fields => .obj fields
    | .arr xs => .arr xs
    | _ => .undefV

/-- The body of `comparePackageJson`'s per-field loop: the optional
`FieldChange` a single field contributes. -/
def fieldChangeFor (localP registryP : PackageJson) (additional : Option (List String))
    (field : String) : Option FieldChange :=
  let localValue := jsLookup localP field
  let registryValue := jsLookup registryP field
  if deepEqual localValue registryValue then none
  else if field = "exports" then
    if compareExports localValue registryValue then
      some ⟨field, registryValue, localValue, .critical⟩
    else none
  else if field = "bin" then
    if deepEqual (normalizeBin localValue (asString (jsLookup localP "name")))
        (normalizeBin registryValue (asString (jsLookup registryP "name"))) then none
    else some ⟨field, registryValue, localValue, getFieldSignificance field additional⟩
  else some ⟨field, registryValue, localValue, getFieldSignificance field additional⟩

/-- `generateSummary` from `src/comparators/package-json.ts`. -/
def generateSummary (fieldChanges : List FieldChange) (dependencyChanges : List DependencyChange) :
    String :=
  let criticalFields := fieldChanges.filter fun c => c.significance = .critical
  let significantFields := fieldChanges.filter fun c => c.significance = .significant
  let parts : List String :=
    (if 0 < criticalFields.length then
      ["Critical field changes: " ++ String.intercalate ", " (criticalFields.map (·.field))]
     else [])
    ++ (if 0 < significantFields.length then
      ["Significant field changes: " ++ String.intercalate ", " (significantFields.map (·.field))]
     else [])
    ++ (if 0 < dependencyChanges.length then [getDependencyChangeSummary dependencyChanges] else [])
  if parts.length = 0 then "No significant changes"
  else String.intercalate "; " parts

/-- `comparePackageJson` from `src/comparators/package-json.ts`. -/
def comparePackageJson (O : SemverOracle) (N : NpaOracle) (pfuel cfuel : Nat)
    (localP registryP : PackageJson) (options : Option CompareOptions) :
    PackageJsonComparison :=
  let additional := options.bind (·.additionalSignificantFields)
  let fieldsToCheckKeys :=
    buildFieldsToCheck (additional.getD []) ((options.bind (·.ignoreFields)).getD [])
  let fieldChanges := fieldsToCheckKeys.filterMap (fieldChangeFor localP registryP additional)
  let depComparison := compareDependencies O N pfuel cfuel localP registryP
    (some ⟨options.bind (·.includeOptionalDeps), options.bind (·.treatNarrowingAsEquivalent)⟩)
  let hasSignificantFieldChanges := fieldChanges.any fun c =>
    c.significance = .critical ∨ c.significance = .significant
  ⟨hasSignificantFieldChanges || depComparison.hasChanges, fieldChanges,
    depComparison.changes, generateSummary fieldChanges depComparison.changes⟩

/-! ## File-tree differ (`src/comparators/file-content.ts`)

Archive extraction and hashing are I/O performed by external libraries
(`tar`, `zlib`, `crypto`); the differ proper is the pure classification
loop over the two extracted path-to-bytes maps, embedded here.  Byte
buffers are lists of byte values. -/

inductive FileAction where
  | added | removed | modified
  deriving Repr, DecidableEq

/-- `FileChange` from `src/types.ts`. -/
structure FileChange where
  path : String
  action : FileAction
  deriving Repr, DecidableEq

/-- `FileComparison` from `src/types.ts`. -/
structure FileComparison where
  identical : Bool
  fileChanges : List FileChange
  packageJsonOnly : Bool
  deriving Repr, DecidableEq

/-- `buffersEqual` from `src/comparators/file-content.ts`: a length check
followed by `crypto.timingSafeEqual`, i.e. byte equality. -/
def buffersEqual (a b : List Nat) : Bool :=
  if a.length ≠ b.length then false else a == b

/-- JavaScript `p.indexOf('/package.json')` as an integer (`-1` when the
substring is absent). -/
def packageJsonIdx (p : String) : Int :=
  match subFindIdx p.toList ("/package.json".toList) with
  | some i => (i : Int)
  | none => -1

/-- The per-path manifest test of `comparePackageFiles` (and of
`isOnlyPackageJsonChange`):
`filePath === 'package/package.json' || filePath.indexOf('/package.json') === filePath.length - 13`,
with JavaScript integer arithmetic (so `length - 13` can be negative). -/
def isPackageJsonPath (p : String) : Bool :=
  p = "package/package.json" || packageJsonIdx p = (p.length : Int) - 13

/-- `comparePackageFiles` from `src/comparators/file-content.ts`, after
extraction: the union of both path sets is walked in JavaScript object key
order (local keys first, then new registry keys); a path missing from the
registry map is `added`, one missing from the local map is `removed`, and
byte-unequal contents are `modified`.  `packageJsonOnly` is the loop's
`onlyPackageJsonDiffers` flag (no pushed change with a non-manifest path)
and at least one change. -/
def comparePackageFiles (localFiles registryFiles : List (String × List Nat)) :
    FileComparison :=
  let pathKeys := addKeys (localFiles.map (·.1)) (registryFiles.map (·.1))
  let changes := pathKeys.filterMap fun filePath =>
    match registryFiles.lookup filePath with
    | none => some ⟨filePath, .added⟩
    | some registryContent =>
      match localFiles.lookup filePath with
      | none => some ⟨filePath, .removed⟩
      | some localContent =>
        if buffersEqual localContent registryContent then none
        else some ⟨filePath, .modified⟩
  let onlyPackageJsonDiffers := changes.all fun c => isPackageJsonPath c.path
  ⟨changes.length == 0, changes, onlyPackageJsonDiffers && decide (0 < changes.length)⟩

/-! ## Orchestrator (`src/needs-publish.ts`) -/

inductive ChangeType where
  | version | dependency | field | file | firstPublish
  deriving Repr, DecidableEq

/-- `ChangeDetail` from `src/types.ts`. -/
structure ChangeDetail where
  type : ChangeType
  field : Option String := none
  oldValue : Option JsValue := none
  newValue : Option JsValue := none
  significance : Significance

/-- `NeedsPublishResult` from `src/types.ts`. -/
structure NeedsPublishResult where
  needsPublish : Bool
  reason : String
  changes : Option (List ChangeDetail) := none

/-- The options of `needsPublish` that reach the embedded logic
(`NeedsPublishOptions` from `src/types.ts`; the I/O-only fields `cwd`,
`package`, `registry` and `logLevel` are consumed by the external
collaborators). -/
structure NeedsPublishOptions where
  includeOptionalDeps : Option Bool := none
  additionalSignificantFields : Option (List String) := none
  ignoreFields : Option (List String) := none
  packageJsonOnly : Option Bool := none
  treatNarrowingAsEquivalent : Option Bool := none

/-- Truthiness of an optional boolean option. -/
def optTruthy : Option Bool → Bool
  | some b => b
  | none => false

/-- Steps 5–7 of `needsPublishImpl` (`src/needs-publish.ts` lines 168–245):
given the content-comparison result and the manifests extracted from the
two tarballs, produce the final verdict.  The semantic branch is entered
only when `fileComparison.packageJsonOnly && !options.packageJsonOnly`. -/
def needsPublishPostHash (O : SemverOracle) (N : NpaOracle) (pfuel cfuel : Nat)
    (options : NeedsPublishOptions) (fileComparison : FileComparison)
    (localTarballPkg registryTarballPkg : PackageJson) : NeedsPublishResult :=
  if fileComparison.identical then
    ⟨false, "Files identical (tarball metadata differs)", none⟩
  else if fileComparison.packageJsonOnly && !optTruthy options.packageJsonOnly then
    let pkgJsonComparison := comparePackageJson O N pfuel cfuel localTarballPkg registryTarballPkg
      (some ⟨options.includeOptionalDeps, options.additionalSignificantFields,
        options.ignoreFields, options.treatNarrowingAsEquivalent⟩)
    if !pkgJsonComparison.hasSignificantChanges then
      ⟨false, "Package.json changes are not significant for consumers",
        some (pkgJsonComparison.fieldChanges.map fun fc =>
          ⟨.field, some fc.field, some fc.oldValue, some fc.newValue, .informational⟩)⟩
    else
      ⟨true, pkgJsonComparison.summary,
        some ((pkgJsonComparison.fieldChanges.map fun fc =>
            ⟨.field, some fc.field, some fc.oldValue, some fc.newValue, fc.significance⟩)
          ++ ((pkgJsonComparison.dependencyChanges.filter fun dc =>
                dc.semanticChange ≠ .equivalent ∧ dc.semanticChange ≠ .none).map fun dc =>
            ⟨.dependency, some (dc.type.fieldName ++ "." ++ dc.name),
              dc.oldSpec.map JsValue.str, dc.newSpec.map JsValue.str, .significant⟩))⟩
  else
    ⟨true, "Code changes detected (" ++ toString fileComparison.fileChanges.length
        ++ " files changed)",
      some (fileComparison.fileChanges.map fun fc =>
        ⟨.file, some fc.path, none, none, .significant⟩)⟩

/-- The synchronous head of `needsPublishImpl` (`src/needs-publish.ts`
lines 26–39): a manifest with a truthy `private` field short-circuits to a
fixed no-publish result; everything else is handled by the asynchronous
remainder, abstracted here as a continuation so that the short-circuit is
provably independent of every later step (registry fetch, packing,
hashing, comparison). -/
def needsPublishImpl (localPkg : PackageJson) (rest : Unit → NeedsPublishResult) :
    NeedsPublishResult :=
  if jsTruthy (jsLookup localPkg "private") then
    ⟨false, "Package is private", none⟩
  else rest ()

/-! ## Concrete oracle instantiations

Modelled from the spec: the external `semver` and `npm-package-arg`
libraries are not part of this repository (the specification lists them as
injected capabilities).  The miniature engine below implements their
documented behaviour on the plain `major.minor.patch` version grammar with
optional `v` prefix, `*`, caret and tilde ranges — the fragment exercised
by the concrete inputs of this development.  Caret and tilde ranges
normalise to `>=lo <hi-0` comparator pairs exactly as the real library
prints them, and subset/intersection are computed on the corresponding
half-open version intervals (with the prerelease floor `-0` as an
exclusive upper bound marker). -/

/-- Parse `major.minor.patch`, tolerating a leading `v` and surrounding
whitespace. -/
def parseVer (s : String) : Option (Nat × Nat × Nat) :=
  let t := (trimStr s).data
  let t := match t with
    | 'v' :: rest => rest
    | _ => t
  match (splitOnChar t '.').map parseNatChars with
  | [some a, some b, some c] => some (a, b, c)
  | _ => none

/-- Print a version triple. -/
def fmtVer (v : Nat × Nat × Nat) : String :=
  toString v.1 ++ "." ++ toString v.2.1 ++ "." ++ toString v.2.2

/-- The exclusive upper bound of a caret range. -/
def caretUpper (v : Nat × Nat × Nat) : Nat × Nat × Nat :=
  if 0 < v.1 then (v.1 + 1, 0, 0)
  else if 0 < v.2.1 then (0, v.2.1 + 1, 0)
  else (0, 0, v.2.2 + 1)

/-- The exclusive upper bound of a tilde range. -/
def tildeUpper (v : Nat × Nat × Nat) : Nat × Nat × Nat :=
  (v.1, v.2.1 + 1, 0)

/-- `(new semver.Range(s)).range` for the miniature grammar (the empty
string for `*`, `>=lo <hi-0` for caret/tilde, the plain version for an
exact spec). -/
def rangeRangeC (s : String) : Option String :=
  let t := trimStr s
  if t = "" ∨ t = "*" then some ""
  else if startsWithStr t "^" then (parseVer (dropStr t 1)).map fun v =>
    ">=" ++ fmtVer v ++ " <" ++ fmtVer (caretUpper v) ++ "-0"
  else if startsWithStr t "~" then (parseVer (dropStr t 1)).map fun v =>
    ">=" ++ fmtVer v ++ " <" ++ fmtVer (tildeUpper v) ++ "-0"
  else (parseVer t).map fmtVer

/-- `semver.minVersion` for the miniature grammar. -/
def minVersionC (s : String) : Option (Nat × Nat × Nat) :=
  let t := trimStr s
  if t = "" ∨ t = "*" then some (0, 0, 0)
  else if startsWithStr t "^" || startsWithStr t "~" then parseVer (dropStr t 1)
  else parseVer t

/-- A range bound: a version triple, with `true` marking the `-0`
prerelease floor that sorts immediately below the release. -/
def VBound := (Nat × Nat × Nat) × Bool

/-- Strict order on bounds: lexicographic on the triple, with the
prerelease floor below the release of the same triple. -/
def vbLt (a b : VBound) : Bool :=
  let va := a.1
  let vb := b.1
  if va.1 ≠ vb.1 then va.1 < vb.1
  else if va.2.1 ≠ vb.2.1 then va.2.1 < vb.2.1
  else if va.2.2 ≠ vb.2.2 then va.2.2 < vb.2.2
  else a.2 && !b.2

def vbLe (a b : VBound) : Bool :=
  (a.1 = b.1 ∧ a.2 = b.2) ∨ vbLt a b

/-- The half-open version interval `[lo, hi)` denoted by a miniature-grammar
range (`hi = none` is unbounded; `*` opens at the global prerelease
floor). -/
def rangeInterval (s : String) : Option (VBound × Option VBound) :=
  let t := trimStr s
  if t = "" ∨ t = "*" then some (((0, 0, 0), true), none)
  else if startsWithStr t "^" then (parseVer (dropStr t 1)).map fun v =>
    ((v, false), some (caretUpper v, true))
  else if startsWithStr t "~" then (parseVer (dropStr t 1)).map fun v =>
    ((v, false), some (tildeUpper v, true))
  else (parseVer t).map fun v =>
    ((v, false), some ((v.1, v.2.1, v.2.2 + 1), true))

/-- Upper-bound comparison with `none` as infinity. -/
def hiLe (a b : Option VBound) : Bool :=
  match a, b with
  | _, none => true
  | none, some _ => false
  | some x, some y => vbLe x y

/-- `semver.subset` on the miniature grammar (intervals are never empty,
so subset is bound inclusion). -/
def subsetQC (a b : String) : Option Bool :=
  match rangeInterval a, rangeInterval b with
  | some ia, some ib => some (vbLe ib.1 ia.1 && hiLe ia.2 ib.2)
  | _, _ => none

/-- Strictly-below test against an optional upper bound. -/
def loLtHi (lo : VBound) (hi : Option VBound) : Bool :=
  match hi with
  | none => true
  | some h => vbLt lo h

/-- `Range.intersects` on the miniature grammar. -/
def intersectsQC (a b : String) : Bool :=
  match rangeInterval a, rangeInterval b with
  | some ia, some ib => loLtHi ia.1 ib.2 && loLtHi ib.1 ia.2
  | _, _ => false

/-- `semver.valid` (strict: no `=` prefix, but a `v` prefix is accepted). -/
def validVersionC (s : String) : Bool :=
  (parseVer s).isSome

/-- The miniature `semver` engine. -/
def semverC : SemverOracle :=
  ⟨rangeRangeC, validVersionC, minVersionC, subsetQC, intersectsQC⟩

/-- Modelled from the spec: `npm-package-arg`'s `resolve` on registry
specifiers — a valid version string resolves to type `version`, a valid
range to type `range`, anything else to a dist-tag. -/
def npaC : NpaOracle :=
  ⟨fun spec _ =>
    if (parseVer spec).isSome then some (.version (some (trimStr spec)))
    else if (rangeRangeC spec).isSome then some (.range (some (trimStr spec)))
    else some (.tag (some (trimStr spec)))⟩

/-- An oracle pair modelling a resolver call that throws on every input
(used to exercise the parser's catch-all fallback). -/
def throwingNpa : NpaOracle := ⟨fun _ _ => none⟩

/-- A `semver` oracle on which every library call fails (range construction
throws, nothing is a valid version). -/
def throwingSemver : SemverOracle :=
  ⟨fun _ => none, fun _ => false, fun _ => none, fun _ _ => none, fun _ _ => false⟩

/-- The relations the comparator may pair with `equivalent = true`. -/
def isEquivalentRelation : SpecifierRelation → Bool
  | .identical | .normalizedEqual | .semanticallyEqual | .sameMajorCaret | .sameMinorTilde => true
  | _ => false

/-- A local manifest whose `scripts` object differs from the registry's. -/
def scriptsLocalPkg : PackageJson :=
  [("name", .str "p"), ("version", .str "1.0.0"), ("scripts", .obj [("build", .str "tsc")])]

def scriptsRegistryPkg : PackageJson :=
  [("name", .str "p"), ("version", .str "1.0.0"), ("scripts", .obj [("build", .str "make")])]

/-- A local manifest whose `main` differs from the registry's. -/
def mainLocalPkg : PackageJson :=
  [("name", .str "p"), ("version", .str "1.0.0"), ("main", .str "./dist/index.js")]

def mainRegistryPkg : PackageJson :=
  [("name", .str "p"), ("version", .str "1.0.0"), ("main", .str "./lib/index.js")]

/-- A local manifest that differs from the registry's only in the
never-significant `description` field. -/
def descLocalPkg : PackageJson :=
  [("name", .str "p"), ("version", .str "1.0.0"), ("description", .str "new words")]

def descRegistryPkg : PackageJson :=
  [("name", .str "p"), ("version", .str "1.0.0"), ("description", .str "old words")]

/-- Manifests whose only difference is a dependency spec rewritten from
`v1.0.0` to `1.0.0` — literally different, semantically `normalized-equal`. -/
def depEquivLocalPkg : PackageJson :=
  [("name", .str "p"), ("version", .str "1.0.0"),
   ("dependencies", .obj [("a", .str "1.0.0")])]

def depEquivRegistryPkg : PackageJson :=
  [("name", .str "p"), ("version", .str "1.0.0"),
   ("dependencies", .obj [("a", .str "v1.0.0")])]

/-- The content-comparison outcome in which only the manifest changed. -/
def manifestOnlyFileComparison : FileComparison :=
  ⟨false, [⟨"package/package.json", .modified⟩], true⟩

/-- A well-formed dependency-map value: unique keys (a JavaScript object)
and no empty-string specs. -/
def depMapOk (v : JsValue) : Prop :=
  ((depEntries v).map Prod.fst).Nodup ∧ ∀ p ∈ depEntries v, p.2 ≠ ""

/-- The five manifest fields the dependency differ reads. -/
def depFieldNames : List String :=
  ["dependencies", "peerDependencies", "optionalDependencies",
   "bundledDependencies", "bundleDependencies"]

/-! ## Claim theorems -/

/-- C10: a manifest whose `private` field is truthy makes `needsPublish`
resolve to `{needsPublish := false, reason := "Package is private"}` with no
changes list, independently of everything the asynchronous remainder
(registry fetch, packing, hashing, comparison) would compute. -/
theorem needsPublishImpl_private_short_circuit
    (localPkg : PackageJson) (rest : Unit → NeedsPublishResult)
    (h : jsTruthy (jsLookup localPkg "private") = true) :
    needsPublishImpl localPkg rest = ⟨false, "Package is private", none⟩ := by
  simp [needsPublishImpl, h]

theorem needsPublishImpl_private_short_circuit_witness :
    needsPublishImpl [("private", .bool true)] (fun _ => ⟨true, "changes", none⟩) =
      ⟨false, "Package is private", none⟩ :=
  needsPublishImpl_private_short_circuit [("private", .bool true)] _ (by decide)

/-- C1 (code bug): with `packageJsonOnly := true` the orchestrator's
step-6 guard `fileComparison.packageJsonOnly && !options.packageJsonOnly`
is false, so the manifest comparison is skipped and a manifest-only
difference is reported as code changes — although the option is documented
(`src/types.ts`, CLI help, README) as "Skip file comparison, only compare
package.json semantically", and although the same manifests compare as not
significant (second conjunct) and are routed to the semantic branch when
the option is off (third conjunct). -/
theorem needsPublishPostHash_packageJsonOnly_skips_semantic_comparison :
    needsPublishPostHash semverC npaC 3 3 { packageJsonOnly := some true }
        manifestOnlyFileComparison descLocalPkg descRegistryPkg =
      ⟨true, "Code changes detected (1 files changed)",
        some [⟨.file, some "package/package.json", none, none, .significant⟩]⟩
    ∧ (comparePackageJson semverC npaC 3 3 descLocalPkg descRegistryPkg
        (some ⟨none, none, none, none⟩)).hasSignificantChanges = false
    ∧ needsPublishPostHash semverC npaC 3 3 { packageJsonOnly := some false }
        manifestOnlyFileComparison descLocalPkg descRegistryPkg =
      ⟨false, "Package.json changes are not significant for consumers", some []⟩ := by
  refine ⟨by rfl, by decide, by rfl⟩

/-- C9 (code bug): the manifest-path test
`p.indexOf('/package.json') === p.length - 13` also accepts every
12-character path that does not contain `/package.json` at all (both sides
are `-1`), so a differing `package/a.js` alone makes `packageJsonOnly`
true even though that path is not the package manifest. -/
theorem comparePackageFiles_twelve_char_path_bug :
    comparePackageFiles [("package/a.js", [49])] [("package/a.js", [50])] =
      ⟨false, [⟨"package/a.js", .modified⟩], true⟩
    ∧ "package/a.js" ≠ "package/package.json"
    ∧ "package/a.js".endsWith "/package.json" = false
    ∧ String.length "package/a.js" = 12 := by
  refine ⟨by decide, by decide, by decide, by decide⟩

/-- C4 (counterexample): quantified over every `SpecifierComparison` value,
the claimed rules fail — a (degenerate) comparison with `equivalent = true`
and relation `widened` maps to `equivalent`, not to `widened`, and one with
`equivalent = false` and relation `identical` maps to `incompatible`, not
to `none`. -/
theorem comparisonToSemanticChange_claim_cex :
    comparisonToSemanticChange ⟨true, .widened, none⟩ none ≠ .widened
    ∧ comparisonToSemanticChange ⟨false, .identical, none⟩ none ≠ .none := by
  refine ⟨by decide, by decide⟩

/-- C4 (amended): for every comparison value satisfying the comparator's
output invariant (`equivalent = true` exactly for the five equivalent
relations) and every options value, `comparisonToSemanticChange` maps
`identical` to `none`; any other relation with `equivalent = true` to
`equivalent`; `narrowed` to `equivalent` when `treatNarrowingAsEquivalent`
is true or absent and to `narrowed` when it is false; `widened` to
`widened`; and every other non-equivalent relation to `incompatible`. -/
theorem comparisonToSemanticChange_wellformed_rules
    (c : SpecifierComparison) (options : Option SemanticChangeOptions)
    (hwf : c.equivalent = true ↔ isEquivalentRelation c.relation = true) :
    (c.relation = .identical → comparisonToSemanticChange c options = .none)
    ∧ (c.equivalent = true → c.relation ≠ .identical →
        comparisonToSemanticChange c options = .equivalent)
    ∧ (c.relation = .narrowed →
        ((options.bind (·.treatNarrowingAsEquivalent)) ≠ some false →
          comparisonToSemanticChange c options = .equivalent)
        ∧ ((options.bind (·.treatNarrowingAsEquivalent)) = some false →
          comparisonToSemanticChange c options = .narrowed))
    ∧ (c.relation = .widened → comparisonToSemanticChange c options = .widened)
    ∧ ((c.relation = .partiallyOverlapping ∨ c.relation = .disjoint
        ∨ c.relation = .incompatibleTypes ∨ c.relation = .unknownType) →
        comparisonToSemanticChange c options = .incompatible) := by
  refine ⟨?_, ?_, ?_, ?_, ?_⟩
  · intro h
    have he : c.equivalent = true := hwf.mpr (by rw [h]; rfl)
    simp [comparisonToSemanticChange, he, h]
  · intro he hne
    simp [comparisonToSemanticChange, he, hne]
  · intro h
    have he : c.equivalent = false := by
      cases hq : c.equivalent
      · rfl
      · exact absurd (hwf.mp hq) (by rw [h]; decide)
    constructor
    · intro hopt
      simp [comparisonToSemanticChange, he, h, hopt]
    · intro hopt
      simp [comparisonToSemanticChange, he, h, hopt]
  · intro h
    have he : c.equivalent = false := by
      cases hq : c.equivalent
      · rfl
      · exact absurd (hwf.mp hq) (by rw [h]; decide)
    simp [comparisonToSemanticChange, he, h]
  · intro h
    have he : c.equivalent = false := by
      cases hq : c.equivalent
      · rfl
      · rcases h with h | h | h | h <;> exact absurd (hwf.mp hq) (by rw [h]; decide)
    rcases h with h | h | h | h <;> simp [comparisonToSemanticChange, he, h]

theorem comparisonToSemanticChange_wellformed_rules_witness :
    comparisonToSemanticChange ⟨false, .narrowed, none⟩ none = .equivalent
    ∧ comparisonToSemanticChange ⟨false, .narrowed, none⟩
        (some ⟨some false⟩) = .narrowed
    ∧ comparisonToSemanticChange ⟨true, .identical, none⟩ none = .none :=
  ⟨((comparisonToSemanticChange_wellformed_rules ⟨false, .narrowed, none⟩ none
      (by decide)).2.2.1 rfl).1 (by decide),
   ((comparisonToSemanticChange_wellformed_rules ⟨false, .narrowed, none⟩
      (some ⟨some false⟩) (by decide)).2.2.1 rfl).2 (by decide),
   (comparisonToSemanticChange_wellformed_rules ⟨true, .identical, none⟩ none
      (by decide)).1 rfl⟩

/-- A nonempty filtered list is detected exactly by `any`. -/
theorem filter_length_pos_eq_any {α : Type} (l : List α) (f : α → Bool) :
    decide (0 < (l.filter f).length) = l.any f := by
  induction l with
  | nil => rfl
  | cons hd tl ih =>
    by_cases h : f hd
    · simp [List.filter_cons, h]
    · simp only [List.filter_cons, h, Bool.false_eq_true, if_false, List.any_cons]
      rw [ih]
      simp [h]

/-- C2 (counterexample): a dependency spec rewritten from `v1.0.0` to
`1.0.0` is a literal change, so `dependencyChanges` is non-empty and no
field changed, yet the change is semantically `equivalent` and
`hasSignificantChanges` is false. -/
theorem comparePackageJson_nonempty_depChanges_not_significant_cex :
    (comparePackageJson semverC npaC 3 3 depEquivLocalPkg depEquivRegistryPkg
        none).dependencyChanges ≠ []
    ∧ (comparePackageJson semverC npaC 3 3 depEquivLocalPkg depEquivRegistryPkg
        none).fieldChanges = []
    ∧ (comparePackageJson semverC npaC 3 3 depEquivLocalPkg depEquivRegistryPkg
        none).hasSignificantChanges = false := by
  refine ⟨by decide, by rfl, by decide⟩

/-- C2 (amended): the dependency contribution to `hasSignificantChanges`
is the existence of a returned dependency change whose `semanticChange`
survives the semantic-change mapping outside `{none, equivalent}` — not
mere non-emptiness of `dependencyChanges` — and the underlying differ's
`hasChanges` is true iff at least one change has `semanticChange` outside
`{none, equivalent}`. -/
theorem comparePackageJson_hasSignificantChanges_characterization
    (O : SemverOracle) (N : NpaOracle) (pfuel cfuel : Nat)
    (localP registryP : PackageJson) (options : Option CompareOptions) :
    (comparePackageJson O N pfuel cfuel localP registryP options).hasSignificantChanges =
      (((comparePackageJson O N pfuel cfuel localP registryP options).fieldChanges.any fun c =>
          c.significance = .critical ∨ c.significance = .significant)
        || ((comparePackageJson O N pfuel cfuel localP registryP options).dependencyChanges.any
            fun c => c.semanticChange ≠ .equivalent ∧ c.semanticChange ≠ .none)) := by
  simp only [comparePackageJson, compareDependencies]
  rw [filter_length_pos_eq_any]

/-- C7: `parseVersionSpecifier` is total by construction (every resolver
or semver call that can throw is modelled as an `Option` and both branches
are handled), and whenever the workspace-prefix rule, the empty-string
rule, the resolver (a throw or an unrecognised result type) and the direct
semver-range interpretation all fail to recognise the input, the result is
the `tag` category with `normalized` equal to the raw input. -/
theorem parseVersionSpecifier_fallback_tag
    (O : SemverOracle) (N : NpaOracle) (fuel : Nat) (spec : String) (whereDir : Option String)
    (hw : startsWithStr spec "workspace:" = false)
    (he : spec ≠ "")
    (hr : N.resolve spec whereDir = none ∨ N.resolve spec whereDir = some .other)
    (hs : O.rangeRange spec = none) :
    parseVersionSpecifier O N fuel spec whereDir =
      .mk .tag spec spec none none none := by
  rcases hr with h | h <;> cases fuel <;>
    simp [parseVersionSpecifier, parseStep, hw, he, h, parseSemverFallback, hs]

theorem parseVersionSpecifier_fallback_tag_witness :
    parseVersionSpecifier throwingSemver throwingNpa 0 "not#a@spec" none =
      .mk .tag "not#a@spec" "not#a@spec" none none none :=
  parseVersionSpecifier_fallback_tag throwingSemver throwingNpa 0 "not#a@spec" none
    (by decide) (by decide) (Or.inl rfl) rfl

/-- A string starting with `~` does not start with `^`. -/
theorem caret_false_of_tilde {s : String} (h : startsWithStr s "~" = true) :
    startsWithStr s "^" = false := by
  unfold startsWithStr at h ⊢
  rw [show "~".data = ['~'] from rfl] at h
  rw [show "^".data = ['^'] from rfl]
  cases hd : s.data with
  | nil => rw [hd] at h; simp [List.isPrefixOf] at h
  | cons c rest =>
    rw [hd] at h
    simp only [List.isPrefixOf, Bool.and_eq_true, beq_iff_eq] at h
    obtain ⟨hc, -⟩ := h
    subst hc
    simp [List.isPrefixOf]

/-- The caret same-major heuristic branch of `compareSemverSpecs`. -/
theorem compareSemverSpecs_sameMajorCaret (O : SemverOracle) (a b na nb : String)
    (bA bB : Nat × Nat)
    (hna : O.rangeRange a = some na) (hnb : O.rangeRange b = some nb) (hdiff : na ≠ nb)
    (ha : startsWithStr (trimStr a) "^" = true) (hb : startsWithStr (trimStr b) "^" = true)
    (hma : extractMajorMinor O a = some bA) (hmb : extractMajorMinor O b = some bB)
    (hmaj : bA.1 = bB.1) :
    compareSemverSpecs O a b = ⟨true, .sameMajorCaret, none⟩ := by
  simp [compareSemverSpecs, hna, hnb, hdiff, ha, hb, hma, hmb, hmaj]

/-- The tilde same-minor heuristic branch of `compareSemverSpecs`. -/
theorem compareSemverSpecs_sameMinorTilde (O : SemverOracle) (a b na nb : String)
    (bA bB : Nat × Nat)
    (hna : O.rangeRange a = some na) (hnb : O.rangeRange b = some nb) (hdiff : na ≠ nb)
    (ha : startsWithStr (trimStr a) "~" = true) (hb : startsWithStr (trimStr b) "~" = true)
    (hma : extractMajorMinor O a = some bA) (hmb : extractMajorMinor O b = some bB)
    (hmaj : bA.1 = bB.1) (hmin : bA.2 = bB.2) :
    compareSemverSpecs O a b = ⟨true, .sameMinorTilde, none⟩ := by
  have ha2 := caret_false_of_tilde ha
  simp [compareSemverSpecs, hna, hnb, hdiff, ha, hb, ha2, hma, hmb, hmaj, hmin]

/-- When both sides parse into the semver category (and neither is a
workspace or alias specifier), the comparator dispatches to
`compareSemverSpecs` on the raw strings. -/
theorem compareOnce_semver_dispatch (O : SemverOracle) (N : NpaOracle) (pfuel : Nat)
    (recur : String → String → SpecifierComparison) (a b : String) (whereDir : Option String)
    (hne : a ≠ b)
    (hca : getSpecCategory (parseVersionSpecifier O N pfuel a whereDir).type = "semver")
    (hcb : getSpecCategory (parseVersionSpecifier O N pfuel b whereDir).type = "semver") :
    compareOnce O N pfuel recur a b whereDir = compareSemverSpecs O a b := by
  unfold compareOnce
  rw [if_neg hne]
  cases hA : (parseVersionSpecifier O N pfuel a whereDir).type <;> rw [hA] at hca <;>
    first
      | exact absurd hca (by decide)
      | (cases hB : (parseVersionSpecifier O N pfuel b whereDir).type <;> rw [hB] at hcb <;>
          first
            | exact absurd hcb (by decide)
            | simp [hA, hB, getSpecCategory])

/-- Fuel-independent form of the dispatch lemma. -/
theorem compareVersionSpecifiers_semver_dispatch (O : SemverOracle) (N : NpaOracle)
    (pfuel cfuel : Nat) (a b : String) (whereDir : Option String)
    (hne : a ≠ b)
    (hca : getSpecCategory (parseVersionSpecifier O N pfuel a whereDir).type = "semver")
    (hcb : getSpecCategory (parseVersionSpecifier O N pfuel b whereDir).type = "semver") :
    compareVersionSpecifiers O N pfuel cfuel a b whereDir = compareSemverSpecs O a b := by
  cases cfuel <;> simp only [compareVersionSpecifiers] <;>
    exact compareOnce_semver_dispatch O N pfuel _ a b whereDir hne hca hcb

/-- C5 (counterexample): `^1.2.3` and `^v1.2.3` are distinct raw strings,
both begin with `^`, and resolve to the same minimum major version, yet
the comparator answers `normalized-equal`, not `same-major-caret`, because
the normalized-range equality check runs before the caret heuristic. -/
theorem compareVersionSpecifiers_caret_normalizedEqual_cex :
    "^1.2.3" ≠ "^v1.2.3"
    ∧ startsWithStr "^1.2.3" "^" = true ∧ startsWithStr "^v1.2.3" "^" = true
    ∧ extractMajorMinor semverC "^1.2.3" = some (1, 2)
    ∧ extractMajorMinor semverC "^v1.2.3" = some (1, 2)
    ∧ compareVersionSpecifiers semverC npaC 1 1 "^1.2.3" "^v1.2.3" none =
        ⟨true, .normalizedEqual, none⟩
    ∧ SpecifierRelation.normalizedEqual ≠ SpecifierRelation.sameMajorCaret := by
  refine ⟨by decide, by decide, by decide, by decide, by decide, by decide, by decide⟩

/-- C5 (amended): for distinct raw specifiers that both reach the semver
comparison path and whose normalized range strings differ, the same-family
heuristics apply: both (trimmed) beginning with `^` and resolving to the
same minimum major give `{equivalent := true, relation := same-major-caret}`,
and both beginning with `~` and resolving to the same minimum major and
minor give `{equivalent := true, relation := same-minor-tilde}`. -/
theorem compareVersionSpecifiers_same_family_heuristics
    (O : SemverOracle) (N : NpaOracle) (pfuel cfuel : Nat) (a b : String)
    (whereDir : Option String) (na nb : String) (bA bB : Nat × Nat)
    (hne : a ≠ b)
    (hca : getSpecCategory (parseVersionSpecifier O N pfuel a whereDir).type = "semver")
    (hcb : getSpecCategory (parseVersionSpecifier O N pfuel b whereDir).type = "semver")
    (hna : O.rangeRange a = some na) (hnb : O.rangeRange b = some nb) (hdiff : na ≠ nb)
    (hma : extractMajorMinor O a = some bA) (hmb : extractMajorMinor O b = some bB) :
    (startsWithStr (trimStr a) "^" = true → startsWithStr (trimStr b) "^" = true →
      bA.1 = bB.1 →
      compareVersionSpecifiers O N pfuel cfuel a b whereDir = ⟨true, .sameMajorCaret, none⟩)
    ∧ (startsWithStr (trimStr a) "~" = true → startsWithStr (trimStr b) "~" = true →
        bA.1 = bB.1 → bA.2 = bB.2 →
      compareVersionSpecifiers O N pfuel cfuel a b whereDir = ⟨true, .sameMinorTilde, none⟩) := by
  constructor
  · intro ha hb hmaj
    rw [compareVersionSpecifiers_semver_dispatch O N pfuel cfuel a b whereDir hne hca hcb]
    exact compareSemverSpecs_sameMajorCaret O a b na nb bA bB hna hnb hdiff ha hb hma hmb hmaj
  · intro ha hb hmaj hmin
    rw [compareVersionSpecifiers_semver_dispatch O N pfuel cfuel a b whereDir hne hca hcb]
    exact compareSemverSpecs_sameMinorTilde O a b na nb bA bB hna hnb hdiff ha hb hma hmb hmaj hmin

theorem compareVersionSpecifiers_same_family_heuristics_witness :
    compareVersionSpecifiers semverC npaC 1 1 "^1.2.3" "^1.2.4" none =
      ⟨true, .sameMajorCaret, none⟩
    ∧ compareVersionSpecifiers semverC npaC 1 1 "^4.17.0" "^4.18.0" none =
      ⟨true, .sameMajorCaret, none⟩
    ∧ compareVersionSpecifiers semverC npaC 1 1 "~4.17.0" "~4.17.5" none =
      ⟨true, .sameMinorTilde, none⟩
    ∧ compareVersionSpecifiers semverC npaC 1 1 "^1.0.0" "^2.0.0" none =
      ⟨false, .disjoint, none⟩ :=
  ⟨(compareVersionSpecifiers_same_family_heuristics semverC npaC 1 1 "^1.2.3" "^1.2.4" none
      ">=1.2.3 <2.0.0-0" ">=1.2.4 <2.0.0-0" (1, 2) (1, 2)
      (by decide) (by decide) (by decide) rfl rfl (by decide) rfl rfl).1
      (by decide) (by decide) rfl,
   (compareVersionSpecifiers_same_family_heuristics semverC npaC 1 1 "^4.17.0" "^4.18.0" none
      ">=4.17.0 <5.0.0-0" ">=4.18.0 <5.0.0-0" (4, 17) (4, 18)
      (by decide) (by decide) (by decide) rfl rfl (by decide) rfl rfl).1
      (by decide) (by decide) rfl,
   (compareVersionSpecifiers_same_family_heuristics semverC npaC 1 1 "~4.17.0" "~4.17.5" none
      ">=4.17.0 <4.18.0-0" ">=4.17.5 <4.18.0-0" (4, 17) (4, 17)
      (by decide) (by decide) (by decide) rfl rfl (by decide) rfl rfl).2
      (by decide) (by decide) rfl rfl,
   by decide⟩

/-- A successful association-list lookup exhibits a member. -/
theorem lookup_mem {β : Type} {l : List (String × β)} {k : String} {v : β}
    (h : l.lookup k = some v) : (k, v) ∈ l := by
  induction l with
  | nil => simp at h
  | cons p tl ih =>
    obtain ⟨a, b⟩ := p
    by_cases hk : k = a
    · subst hk
      rw [List.lookup_cons] at h
      simp at h
      subst h
      exact List.mem_cons_self _ _
    · have hb : (k == a) = false := by simpa using hk
      rw [List.lookup_cons] at h
      simp only [hb] at h
      exact List.mem_cons_of_mem _ (ih h)

/-- With duplicate-free keys (JavaScript object keys are unique), a member
is found by lookup. -/
theorem lookup_of_mem_nodup {β : Type} {l : List (String × β)}
    (hnd : (l.map Prod.fst).Nodup) {k : String} {v : β} (hm : (k, v) ∈ l) :
    l.lookup k = some v := by
  induction l with
  | nil => simp at hm
  | cons p tl ih =>
    obtain ⟨a, b⟩ := p
    rw [List.map_cons, List.nodup_cons] at hnd
    obtain ⟨hna, hnd'⟩ := hnd
    rcases List.mem_cons.mp hm with heq | hmem
    · obtain ⟨rfl, rfl⟩ := Prod.mk.injEq _ _ _ _ ▸ heq
      simp [List.lookup_cons]
    · have hka : (k == a) = false := by
        simp only [beq_eq_false_iff_ne, ne_eq]
        rintro rfl
        exact hna (List.mem_map.mpr ⟨(k, v), hmem, rfl⟩)
      rw [List.lookup_cons]
      simp only [hka]
      exact ih hnd' hmem

/-- A failed lookup means no key matches. -/
theorem any_fst_false_of_lookup_none {β : Type} {l : List (String × β)} {k : String}
    (h : l.lookup k = none) : (l.any fun p => p.1 == k) = false := by
  rw [List.lookup_eq_none_iff] at h
  rw [Bool.eq_false_iff]
  intro hany
  obtain ⟨p, hp, hpk⟩ := List.any_eq_true.mp hany
  have := h p hp
  simp only [bne_iff_ne, ne_eq] at this
  exact this (beq_iff_eq.mp hpk).symm

/-- A successful lookup means some key matches. -/
theorem any_fst_true_of_lookup_some {β : Type} {l : List (String × β)} {k : String} {v : β}
    (h : l.lookup k = some v) : (l.any fun p => p.1 == k) = true :=
  List.any_eq_true.mpr ⟨(k, v), lookup_mem h, by simp⟩

/-- An added/changed entry carries the local pair's name. -/
theorem depAddedChangedEntry_name {O : SemverOracle} {N : NpaOracle} {pfuel cfuel : Nat}
    {registryDeps : List (String × String)} {depType : DepType}
    {semanticOpts : Option SemanticChangeOptions} {kv : String × String} {c : DependencyChange}
    (h : depAddedChangedEntry O N pfuel cfuel registryDeps depType semanticOpts kv = some c) :
    c.name = kv.1 := by
  unfold depAddedChangedEntry at h
  rcases hr : registryDeps.lookup kv.1 with _ | rs <;> simp only [hr] at h
  · obtain rfl := Option.some.inj h
    rfl
  · by_cases h0 : rs = ""
    · rw [if_pos h0] at h
      obtain rfl := Option.some.inj h
      rfl
    · rw [if_neg h0] at h
      by_cases hd : kv.2 ≠ rs
      · rw [if_pos hd] at h
        obtain rfl := Option.some.inj h
        rfl
      · rw [if_neg hd] at h
        exact absurd h (by simp)

/-- A removed entry carries the registry pair's name. -/
theorem depRemovedEntry_name {localDeps : List (String × String)} {depType : DepType}
    {kv : String × String} {c : DependencyChange}
    (h : depRemovedEntry localDeps depType kv = some c) : c.name = kv.1 := by
  unfold depRemovedEntry at h
  by_cases ha : (localDeps.any fun lv => lv.1 == kv.1) = true
  · rw [if_pos ha] at h
    exact absurd h (by simp)
  · rw [if_neg ha] at h
    obtain rfl := Option.some.inj h
    rfl

/-- C8 (counterexample): the first loop tests the registry spec for JS
truthiness (`if (!registrySpec)`), so a dependency present in both maps
whose old spec is the empty string is reported as `added` — even when the
two literal specs are identical, although the claim says identical specs
produce no entry, and a genuinely changed spec with empty old spec is
`added` rather than `changed`. -/
theorem compareDependencyObject_empty_spec_cex :
    compareDependencyObject semverC npaC 1 1 [("a", "")] [("a", "")] .dependencies none =
      [⟨"a", .dependencies, .added, none, some "", .incompatible⟩]
    ∧ compareDependencyObject semverC npaC 1 1 [("a", "^1.0.0")] [("a", "")] .dependencies none =
      [⟨"a", .dependencies, .added, none, some "^1.0.0", .incompatible⟩] := by
  refine ⟨by decide, by decide⟩

/-- C8 (amended): over dependency maps with unique keys, a name only in
the new map is `added` with `incompatible`; only in the old map, `removed`
with `incompatible`; in both with a non-empty old spec and differing
literal specs, `changed` with the mapped semantic change; in both with
identical non-empty specs, no entry at all; and — the behaviour forced by
the counterexample — in both with an empty old spec, `added` with
`incompatible`. -/
theorem compareDependencyObject_classification
    (O : SemverOracle) (N : NpaOracle) (pfuel cfuel : Nat)
    (localDeps registryDeps : List (String × String)) (depType : DepType)
    (semanticOpts : Option SemanticChangeOptions) (name : String)
    (hndL : (localDeps.map Prod.fst).Nodup) (_hndR : (registryDeps.map Prod.fst).Nodup) :
    (∀ ls, localDeps.lookup name = some ls → registryDeps.lookup name = none →
      (⟨name, depType, .added, none, some ls, .incompatible⟩ : DependencyChange) ∈
        compareDependencyObject O N pfuel cfuel localDeps registryDeps depType semanticOpts)
    ∧ (∀ rs, localDeps.lookup name = none → registryDeps.lookup name = some rs →
      (⟨name, depType, .removed, some rs, none, .incompatible⟩ : DependencyChange) ∈
        compareDependencyObject O N pfuel cfuel localDeps registryDeps depType semanticOpts)
    ∧ (∀ ls rs, localDeps.lookup name = some ls → registryDeps.lookup name = some rs →
        rs ≠ "" → ls ≠ rs →
      (⟨name, depType, .changed, some rs, some ls,
        comparisonToSemanticChange (compareVersionSpecifiers O N pfuel cfuel rs ls none)
          semanticOpts⟩ : DependencyChange) ∈
        compareDependencyObject O N pfuel cfuel localDeps registryDeps depType semanticOpts)
    ∧ (∀ s, localDeps.lookup name = some s → registryDeps.lookup name = some s → s ≠ "" →
      ∀ c ∈ compareDependencyObject O N pfuel cfuel localDeps registryDeps depType semanticOpts,
        c.name ≠ name)
    ∧ (∀ ls, localDeps.lookup name = some ls → registryDeps.lookup name = some "" →
      (⟨name, depType, .added, none, some ls, .incompatible⟩ : DependencyChange) ∈
        compareDependencyObject O N pfuel cfuel localDeps registryDeps depType semanticOpts) := by
  refine ⟨?_, ?_, ?_, ?_, ?_⟩
  · intro ls hl hr
    refine List.mem_append_left _ (List.mem_filterMap.mpr ⟨(name, ls), lookup_mem hl, ?_⟩)
    simp [depAddedChangedEntry, hr]
  · intro rs hl hr
    refine List.mem_append_right _ (List.mem_filterMap.mpr ⟨(name, rs), lookup_mem hr, ?_⟩)
    simp [depRemovedEntry, any_fst_false_of_lookup_none hl]
  · intro ls rs hl hr h0 hd
    refine List.mem_append_left _ (List.mem_filterMap.mpr ⟨(name, ls), lookup_mem hl, ?_⟩)
    simp [depAddedChangedEntry, hr, h0, hd]
  · intro s hl hr h0 c hc heq
    rcases List.mem_append.mp hc with hmem | hmem
    · obtain ⟨kv, hkv, hfn⟩ := List.mem_filterMap.mp hmem
      obtain ⟨n, lsp⟩ := kv
      have hname : n = name := by
        have h1 := depAddedChangedEntry_name hfn
        simp only at h1
        rw [← h1]
        exact heq
      rw [hname] at hkv hfn
      have h2 : List.lookup name localDeps = some lsp := lookup_of_mem_nodup hndL hkv
      rw [hl] at h2
      obtain rfl := Option.some.inj h2
      have hz : depAddedChangedEntry O N pfuel cfuel registryDeps depType semanticOpts
          (name, s) = none := by
        simp [depAddedChangedEntry, hr, h0]
      rw [hz] at hfn
      exact Option.noConfusion hfn
    · obtain ⟨kv, hkv, hfn⟩ := List.mem_filterMap.mp hmem
      obtain ⟨n, rsp⟩ := kv
      have hname : n = name := by
        have h1 := depRemovedEntry_name hfn
        simp only at h1
        rw [← h1]
        exact heq
      rw [hname] at hfn
      have hz : depRemovedEntry localDeps depType (name, rsp) = none := by
        simp [depRemovedEntry, any_fst_true_of_lookup_some hl]
      rw [hz] at hfn
      exact Option.noConfusion hfn
  · intro ls hl hr
    refine List.mem_append_left _ (List.mem_filterMap.mpr ⟨(name, ls), lookup_mem hl, ?_⟩)
    simp [depAddedChangedEntry, hr]

theorem compareDependencyObject_classification_witness :
    (⟨"lodash", .dependencies, .added, none, some "^4.0.0", .incompatible⟩ : DependencyChange) ∈
      compareDependencyObject semverC npaC 1 1 [("lodash", "^4.0.0")] [] .dependencies none
    ∧ (⟨"lodash", .dependencies, .removed, some "^4.0.0", none, .incompatible⟩ :
        DependencyChange) ∈
      compareDependencyObject semverC npaC 1 1 [] [("lodash", "^4.0.0")] .dependencies none
    ∧ (⟨"lodash", .dependencies, .changed, some "^4.17.0", some "^4.18.0",
        comparisonToSemanticChange
          (compareVersionSpecifiers semverC npaC 1 1 "^4.17.0" "^4.18.0" none) none⟩ :
        DependencyChange) ∈
      compareDependencyObject semverC npaC 1 1 [("lodash", "^4.18.0")] [("lodash", "^4.17.0")]
        .dependencies none :=
  ⟨(compareDependencyObject_classification semverC npaC 1 1 [("lodash", "^4.0.0")] []
      .dependencies none "lodash" (by decide) (by decide)).1 "^4.0.0" rfl rfl,
   (compareDependencyObject_classification semverC npaC 1 1 [] [("lodash", "^4.0.0")]
      .dependencies none "lodash" (by decide) (by decide)).2.1 "^4.0.0" rfl rfl,
   (compareDependencyObject_classification semverC npaC 1 1 [("lodash", "^4.18.0")]
      [("lodash", "^4.17.0")] .dependencies none "lodash" (by decide) (by decide)).2.2.1
      "^4.18.0" "^4.17.0" rfl rfl (by decide) (by decide)⟩

/-- Keys already present survive JavaScript object key insertion. -/
theorem mem_addKeys_left {x : String} :
    ∀ (l base : List String), x ∈ base → x ∈ addKeys base l := by
  intro l
  induction l with
  | nil => intro base h; exact h
  | cons f rest ih =>
    intro base h
    unfold addKeys
    by_cases hc : base.contains f = true
    · rw [if_pos hc]
      exact ih base h
    · rw [if_neg hc]
      exact ih _ (List.mem_append_left _ h)

/-- A key of the inserted object comes from the base or the insertions. -/
theorem mem_of_mem_addKeys {x : String} :
    ∀ (l base : List String), x ∈ addKeys base l → x ∈ base ∨ x ∈ l := by
  intro l
  induction l with
  | nil => intro base h; exact Or.inl h
  | cons f rest ih =>
    intro base h
    unfold addKeys at h
    by_cases hc : base.contains f = true
    · rw [if_pos hc] at h
      rcases ih base h with h1 | h1
      · exact Or.inl h1
      · exact Or.inr (List.mem_cons_of_mem _ h1)
    · rw [if_neg hc] at h
      rcases ih _ h with h1 | h1
      · rcases List.mem_append.mp h1 with h2 | h2
        · exact Or.inl h2
        · simp at h2
          subst h2
          exact Or.inr (List.mem_cons_self _ _)
      · exact Or.inr (List.mem_cons_of_mem _ h1)

/-- A field-loop entry carries the field it was produced for. -/
theorem fieldChangeFor_field {localP registryP : PackageJson}
    {additional : Option (List String)} {field : String} {c : FieldChange}
    (h : fieldChangeFor localP registryP additional field = some c) : c.field = field := by
  unfold fieldChangeFor at h
  simp only at h
  repeat' split at h
  all_goals first
    | (obtain rfl := Option.some.inj h; rfl)
    | exact Option.noConfusion h

/-- The field-change list of `comparePackageJson`, exposed. -/
theorem comparePackageJson_fieldChanges_eq (O : SemverOracle) (N : NpaOracle)
    (pfuel cfuel : Nat) (localP registryP : PackageJson) (options : Option CompareOptions) :
    (comparePackageJson O N pfuel cfuel localP registryP options).fieldChanges =
      (buildFieldsToCheck ((options.bind (·.additionalSignificantFields)).getD [])
          ((options.bind (·.ignoreFields)).getD [])).filterMap
        (fieldChangeFor localP registryP (options.bind (·.additionalSignificantFields))) := by
  simp only [comparePackageJson]

/-- The verdict flag of `comparePackageJson`, exposed. -/
theorem comparePackageJson_hasSig_eq (O : SemverOracle) (N : NpaOracle)
    (pfuel cfuel : Nat) (localP registryP : PackageJson) (options : Option CompareOptions) :
    (comparePackageJson O N pfuel cfuel localP registryP options).hasSignificantChanges =
      (((comparePackageJson O N pfuel cfuel localP registryP options).fieldChanges.any fun c =>
          c.significance = .critical ∨ c.significance = .significant)
        || (compareDependencies O N pfuel cfuel localP registryP
            (some ⟨options.bind (·.includeOptionalDeps),
              options.bind (·.treatNarrowingAsEquivalent)⟩)).hasChanges) := by
  simp only [comparePackageJson]

/-- A well-formed dependency map diffed against itself yields no change. -/
theorem compareDependencyObject_self (O : SemverOracle) (N : NpaOracle) (pfuel cfuel : Nat)
    (d : List (String × String)) (depType : DepType)
    (semanticOpts : Option SemanticChangeOptions)
    (hnd : (d.map Prod.fst).Nodup) (hne : ∀ p ∈ d, p.2 ≠ "") :
    compareDependencyObject O N pfuel cfuel d d depType semanticOpts = [] := by
  unfold compareDependencyObject depAddedChanged depRemoved
  rw [List.append_eq_nil]
  constructor
  · rw [List.filterMap_eq_nil_iff]
    intro kv hkv
    have hl : d.lookup kv.1 = some kv.2 := by
      obtain ⟨a, b⟩ := kv
      exact lookup_of_mem_nodup hnd hkv
    simp [depAddedChangedEntry, hl, hne kv hkv]
  · rw [List.filterMap_eq_nil_iff]
    intro kv hkv
    have ha : (d.any fun lv => lv.1 == kv.1) = true :=
      List.any_eq_true.mpr ⟨kv, hkv, by simp⟩
    simp [depRemovedEntry, ha]

/-- Equal bundled arrays yield no bundled change. -/
theorem compareBundledDeps_self (localP registryP : PackageJson)
    (h1 : jsLookup localP "bundledDependencies" = jsLookup registryP "bundledDependencies")
    (h2 : jsLookup localP "bundleDependencies" = jsLookup registryP "bundleDependencies") :
    compareBundledDeps localP registryP = [] := by
  unfold compareBundledDeps bundledArray
  rw [h1, h2]
  set arr := asStringArray (jsOrVal (jsLookup registryP "bundledDependencies")
    (jsOrVal (jsLookup registryP "bundleDependencies") (JsValue.arr []))) with harr
  rw [List.append_eq_nil]
  constructor
  · rw [List.filterMap_eq_nil_iff]
    intro name hmem
    have hc : arr.contains name = true :=
      List.contains_iff_exists_mem_beq.mpr ⟨name, hmem, by simp⟩
    simp [hc, hmem]
  · rw [List.filterMap_eq_nil_iff]
    intro name hmem
    have hc : arr.contains name = true :=
      List.contains_iff_exists_mem_beq.mpr ⟨name, hmem, by simp⟩
    simp [hc, hmem]

/-- The differ's flag, as an `any` over its change list. -/
theorem compareDependencies_hasChanges_eq (O : SemverOracle) (N : NpaOracle)
    (pfuel cfuel : Nat) (localP registryP : PackageJson)
    (options : Option DependencyCompareOptions) :
    (compareDependencies O N pfuel cfuel localP registryP options).hasChanges =
      ((compareDependencies O N pfuel cfuel localP registryP options).changes.any fun c =>
        c.semanticChange ≠ .equivalent ∧ c.semanticChange ≠ .none) := by
  simp only [compareDependencies]
  rw [filter_length_pos_eq_any]

/-- Manifests agreeing on the five dependency fields (with well-formed
maps) produce no dependency change. -/
theorem compareDependencies_self_noChanges (O : SemverOracle) (N : NpaOracle)
    (pfuel cfuel : Nat) (localP registryP : PackageJson)
    (options : Option DependencyCompareOptions)
    (heq : ∀ f ∈ depFieldNames, jsLookup localP f = jsLookup registryP f)
    (hok : ∀ f ∈ ["dependencies", "peerDependencies", "optionalDependencies"],
      depMapOk (jsLookup localP f)) :
    (compareDependencies O N pfuel cfuel localP registryP options).changes = []
    ∧ (compareDependencies O N pfuel cfuel localP registryP options).hasChanges = false := by
  have hch : (compareDependencies O N pfuel cfuel localP registryP options).changes = [] := by
    simp only [compareDependencies]
    rw [List.flatten_eq_nil_iff]
    intro lst hlst
    obtain ⟨t, ht, rfl⟩ := List.mem_map.mp hlst
    cases t
    · rw [if_neg (by decide)]
      have h1 := heq "dependencies" (by simp [depFieldNames])
      have h2 := hok "dependencies" (by simp)
      simp only [DepType.fieldName]
      rw [← h1]
      exact compareDependencyObject_self O N pfuel cfuel _ _ _ h2.1 h2.2
    · rw [if_neg (by decide)]
      have h1 := heq "peerDependencies" (by simp [depFieldNames])
      have h2 := hok "peerDependencies" (by simp)
      simp only [DepType.fieldName]
      rw [← h1]
      exact compareDependencyObject_self O N pfuel cfuel _ _ _ h2.1 h2.2
    · rw [if_neg (by decide)]
      have h1 := heq "optionalDependencies" (by simp [depFieldNames])
      have h2 := hok "optionalDependencies" (by simp)
      simp only [DepType.fieldName]
      rw [← h1]
      exact compareDependencyObject_self O N pfuel cfuel _ _ _ h2.1 h2.2
    · rw [if_pos rfl]
      exact compareBundledDeps_self localP registryP
        (heq "bundledDependencies" (by simp [depFieldNames]))
        (heq "bundleDependencies" (by simp [depFieldNames]))
  refine ⟨hch, ?_⟩
  rw [compareDependencies_hasChanges_eq, hch]
  rfl

/-- `contains = false` refutes membership. -/
theorem not_mem_of_contains_false {l : List String} {x : String}
    (h : l.contains x = false) : x ∉ l := by
  intro hmem
  have hc : l.contains x = true :=
    List.contains_iff_exists_mem_beq.mpr ⟨x, hmem, by simp⟩
  rw [h] at hc
  exact Bool.noConfusion hc

/-- The fixed significant and never-significant field tables are disjoint. -/
theorem sig_nev_disjoint : ∀ k ∈ significantFieldsList, k ∉ neverSignificantFieldsList := by
  decide

/-- A field in `SIGNIFICANT_FIELDS` that is not ignored is checked. -/
theorem mem_fieldsToCheck_of_sig {field : String} (hmem : field ∈ significantFieldsList)
    {add ignore : List String} (hign : ignore.contains field = false) :
    field ∈ buildFieldsToCheck add ignore :=
  List.mem_filter.mpr ⟨mem_addKeys_left add significantFieldsList hmem,
    by simp [not_mem_of_contains_false hign]⟩

/-- A checked field whose loop body reports a critical-or-significant
entry puts that entry into `fieldChanges` and sets the verdict flag. -/
theorem comparePackageJson_entry_sets_flag (O : SemverOracle) (N : NpaOracle)
    (pfuel cfuel : Nat) (localP registryP : PackageJson) (options : Option CompareOptions)
    (field : String) (entry : FieldChange)
    (hkeys : field ∈ buildFieldsToCheck ((options.bind (·.additionalSignificantFields)).getD [])
      ((options.bind (·.ignoreFields)).getD []))
    (hsome : fieldChangeFor localP registryP (options.bind (·.additionalSignificantFields))
      field = some entry)
    (hsig : entry.significance = .critical ∨ entry.significance = .significant) :
    entry ∈ (comparePackageJson O N pfuel cfuel localP registryP options).fieldChanges
    ∧ (comparePackageJson O N pfuel cfuel localP registryP options).hasSignificantChanges
      = true := by
  have hmem : entry ∈ (comparePackageJson O N pfuel cfuel localP registryP options).fieldChanges := by
    rw [comparePackageJson_fieldChanges_eq]
    exact List.mem_filterMap.mpr ⟨field, hkeys, hsome⟩
  refine ⟨hmem, ?_⟩
  rw [comparePackageJson_hasSig_eq]
  have hany : ((comparePackageJson O N pfuel cfuel localP registryP options).fieldChanges.any
      fun c => c.significance = .critical ∨ c.significance = .significant) = true :=
    List.any_eq_true.mpr ⟨entry, hmem, decide_eq_true hsig⟩
  rw [hany]
  rfl

/-- C3 (counterexample): caller configuration defeats both halves of the
claim — `additionalSignificantFields := ["scripts"]` makes the
never-significant `scripts` field produce a significant entry and set
`hasSignificantChanges`, and `ignoreFields := ["main"]` makes a genuine
`main` change set nothing. -/
theorem comparePackageJson_neverSignificant_override_cex :
    "scripts" ∈ neverSignificantFieldsList
    ∧ (comparePackageJson semverC npaC 1 1 scriptsLocalPkg scriptsRegistryPkg
        (some { additionalSignificantFields := some ["scripts"] })).hasSignificantChanges = true
    ∧ ((comparePackageJson semverC npaC 1 1 scriptsLocalPkg scriptsRegistryPkg
        (some { additionalSignificantFields := some ["scripts"] })).fieldChanges.map
          fun c => (c.field, c.significance)) = [("scripts", .significant)]
    ∧ (comparePackageJson semverC npaC 1 1 mainLocalPkg mainRegistryPkg
        (some { ignoreFields := some ["main"] })).hasSignificantChanges = false
    ∧ deepEqual (jsLookup mainLocalPkg "main") (jsLookup mainRegistryPkg "main") = false := by
  refine ⟨by decide, by decide, by decide, by decide, by decide⟩

/-- C3 (amended): with the caller configuration kept away from the listed
fields — `additionalSignificantFields` not naming the never-significant
field, `ignoreFields` not naming the significant one — the policy holds:
(A) a never-significant field never yields a field change; (B) manifests
agreeing on every checked field and on the dependency fields have
`hasSignificantChanges = false`, so a difference confined to
never-significant fields sets nothing; (C) a genuine (deep-unequal) change
in `main`, `types` or `engines`, (D) an `exports` change surviving the
exports normalization, and (E) a `bin` change surviving the bin
normalization, each produce a critical-or-significant field change and set
`hasSignificantChanges`. -/
theorem comparePackageJson_field_significance_policy (O : SemverOracle) (N : NpaOracle)
    (pfuel cfuel : Nat) (localP registryP : PackageJson) (options : Option CompareOptions) :
    (∀ field, field ∈ neverSignificantFieldsList →
      ((options.bind (·.additionalSignificantFields)).getD []).contains field = false →
      ∀ c ∈ (comparePackageJson O N pfuel cfuel localP registryP options).fieldChanges,
        c.field ≠ field)
    ∧ ((∀ f ∈ buildFieldsToCheck ((options.bind (·.additionalSignificantFields)).getD [])
          ((options.bind (·.ignoreFields)).getD []),
          deepEqual (jsLookup localP f) (jsLookup registryP f) = true) →
        (∀ f ∈ depFieldNames, jsLookup localP f = jsLookup registryP f) →
        (∀ f ∈ ["dependencies", "peerDependencies", "optionalDependencies"],
          depMapOk (jsLookup localP f)) →
        (comparePackageJson O N pfuel cfuel localP registryP options).hasSignificantChanges
          = false)
    ∧ (∀ field, (field = "main" ∨ field = "types" ∨ field = "engines") →
        deepEqual (jsLookup localP field) (jsLookup registryP field) = false →
        ((options.bind (·.ignoreFields)).getD []).contains field = false →
        (∃ c ∈ (comparePackageJson O N pfuel cfuel localP registryP options).fieldChanges,
          c.field = field ∧
            (c.significance = .critical ∨ c.significance = .significant))
        ∧ (comparePackageJson O N pfuel cfuel localP registryP options).hasSignificantChanges
          = true)
    ∧ (deepEqual (jsLookup localP "exports") (jsLookup registryP "exports") = false →
        compareExports (jsLookup localP "exports") (jsLookup registryP "exports") = true →
        ((options.bind (·.ignoreFields)).getD []).contains "exports" = false →
        (∃ c ∈ (comparePackageJson O N pfuel cfuel localP registryP options).fieldChanges,
          c.field = "exports" ∧ c.significance = .critical)
        ∧ (comparePackageJson O N pfuel cfuel localP registryP options).hasSignificantChanges
          = true)
    ∧ (deepEqual (jsLookup localP "bin") (jsLookup registryP "bin") = false →
        deepEqual (normalizeBin (jsLookup localP "bin") (asString (jsLookup localP "name")))
          (normalizeBin (jsLookup registryP "bin") (asString (jsLookup registryP "name")))
          = false →
        ((options.bind (·.ignoreFields)).getD []).contains "bin" = false →
        (∃ c ∈ (comparePackageJson O N pfuel cfuel localP registryP options).fieldChanges,
          c.field = "bin" ∧
            (c.significance = .critical ∨ c.significance = .significant))
        ∧ (comparePackageJson O N pfuel cfuel localP registryP options).hasSignificantChanges
          = true) := by
  refine ⟨?_, ?_, ?_, ?_, ?_⟩
  · intro field hnev hadd c hc hceq
    rw [comparePackageJson_fieldChanges_eq] at hc
    obtain ⟨k, hk, hsome⟩ := List.mem_filterMap.mp hc
    have hkf : k = field := by rw [← fieldChangeFor_field hsome, hceq]
    subst hkf
    have hk2 := (List.mem_filter.mp hk).1
    rcases mem_of_mem_addKeys _ _ hk2 with hsig | haddm
    · exact sig_nev_disjoint k hsig hnev
    · exact absurd haddm (not_mem_of_contains_false hadd)
  · intro hfields hdep hok
    rw [comparePackageJson_hasSig_eq]
    have hfc : (comparePackageJson O N pfuel cfuel localP registryP options).fieldChanges = [] := by
      rw [comparePackageJson_fieldChanges_eq]
      rw [List.filterMap_eq_nil_iff]
      intro f hf
      simp [fieldChangeFor, hfields f hf]
    have hdc := (compareDependencies_self_noChanges O N pfuel cfuel localP registryP
      (some ⟨options.bind (·.includeOptionalDeps),
        options.bind (·.treatNarrowingAsEquivalent)⟩) hdep hok).2
    rw [hfc, hdc]
    rfl
  · intro field hfield hdeep hign
    have hentry : fieldChangeFor localP registryP
        (options.bind (·.additionalSignificantFields)) field =
        some ⟨field, jsLookup registryP field, jsLookup localP field,
          getFieldSignificance field (options.bind (·.additionalSignificantFields))⟩ := by
      rcases hfield with rfl | rfl | rfl <;>
        simp [fieldChangeFor, hdeep]
    have hsigv : getFieldSignificance field (options.bind (·.additionalSignificantFields))
        = .critical ∨
        getFieldSignificance field (options.bind (·.additionalSignificantFields))
        = .significant := by
      rcases hfield with rfl | rfl | rfl
      · exact Or.inl (by rw [getFieldSignificance, if_pos (by decide)])
      · exact Or.inl (by rw [getFieldSignificance, if_pos (by decide)])
      · refine Or.inr ?_
        rw [getFieldSignificance, if_neg (by decide), if_pos (by decide)]
    have hmemsig : field ∈ significantFieldsList := by
      rcases hfield with rfl | rfl | rfl <;> decide
    have h := comparePackageJson_entry_sets_flag O N pfuel cfuel localP registryP options field _
      (mem_fieldsToCheck_of_sig hmemsig hign) hentry hsigv
    exact ⟨⟨_, h.1, rfl, hsigv⟩, h.2⟩
  · intro hdeep hexp hign
    have hentry : fieldChangeFor localP registryP
        (options.bind (·.additionalSignificantFields)) "exports" =
        some ⟨"exports", jsLookup registryP "exports", jsLookup localP "exports",
          .critical⟩ := by
      simp [fieldChangeFor, hdeep, hexp]
    have h := comparePackageJson_entry_sets_flag O N pfuel cfuel localP registryP options
      "exports" _ (mem_fieldsToCheck_of_sig (by decide) hign) hentry (Or.inl rfl)
    exact ⟨⟨_, h.1, rfl, rfl⟩, h.2⟩
  · intro hdeep hbin hign
    have hentry : fieldChangeFor localP registryP
        (options.bind (·.additionalSignificantFields)) "bin" =
        some ⟨"bin", jsLookup registryP "bin", jsLookup localP "bin",
          getFieldSignificance "bin" (options.bind (·.additionalSignificantFields))⟩ := by
      simp [fieldChangeFor, hdeep, hbin]
    have hsigv : getFieldSignificance "bin" (options.bind (·.additionalSignificantFields))
        = .critical ∨
        getFieldSignificance "bin" (options.bind (·.additionalSignificantFields))
        = .significant :=
      Or.inl (by rw [getFieldSignificance, if_pos (by decide)])
    have h := comparePackageJson_entry_sets_flag O N pfuel cfuel localP registryP options
      "bin" _ (mem_fieldsToCheck_of_sig (by decide) hign) hentry hsigv
    exact ⟨⟨_, h.1, rfl, hsigv⟩, h.2⟩

theorem comparePackageJson_field_significance_policy_witness :
    (∀ c ∈ (comparePackageJson semverC npaC 1 1 scriptsLocalPkg scriptsRegistryPkg
        none).fieldChanges, c.field ≠ "scripts")
    ∧ (comparePackageJson semverC npaC 1 1 mainLocalPkg mainRegistryPkg
        none).hasSignificantChanges = true :=
  ⟨(comparePackageJson_field_significance_policy semverC npaC 1 1 scriptsLocalPkg
      scriptsRegistryPkg none).1 "scripts" (by decide) (by decide),
   ((comparePackageJson_field_significance_policy semverC npaC 1 1 mainLocalPkg
      mainRegistryPkg none).2.2.1 "main" (Or.inl rfl) (by decide) (by decide)).2⟩

/-- The semver comparison never pairs `equivalent = true` with a relation
outside the five equivalent ones. -/
theorem compareSemverSpecs_inv (O : SemverOracle) (a b : String) :
    (compareSemverSpecs O a b).equivalent = true →
    isEquivalentRelation (compareSemverSpecs O a b).relation = true := by
  unfold compareSemverSpecs
  dsimp only
  repeat' split
  all_goals (intro h; first | rfl | exact Bool.noConfusion h)

theorem compareGitSpecs_inv (O : SemverOracle) (pA pB : ParsedVersionSpecifier) :
    (compareGitSpecs O pA pB).equivalent = true →
    isEquivalentRelation (compareGitSpecs O pA pB).relation = true := by
  unfold compareGitSpecs
  repeat' split
  all_goals first
    | exact compareSemverSpecs_inv O _ _
    | (intro h; first | rfl | exact Bool.noConfusion h)

theorem compareFileSpecs_inv (pA pB : ParsedVersionSpecifier) :
    (compareFileSpecs pA pB).equivalent = true →
    isEquivalentRelation (compareFileSpecs pA pB).relation = true := by
  unfold compareFileSpecs
  repeat' split
  all_goals (intro h; first | rfl | exact Bool.noConfusion h)

theorem compareWorkspaceSpecs_inv (pA pB : ParsedVersionSpecifier) :
    (compareWorkspaceSpecs pA pB).equivalent = true →
    isEquivalentRelation (compareWorkspaceSpecs pA pB).relation = true := by
  unfold compareWorkspaceSpecs
  dsimp only
  repeat' split
  all_goals (intro h; first | rfl | exact Bool.noConfusion h)

theorem compareTagSpecs_inv (pA pB : ParsedVersionSpecifier) :
    (compareTagSpecs pA pB).equivalent = true →
    isEquivalentRelation (compareTagSpecs pA pB).relation = true := by
  unfold compareTagSpecs
  repeat' split
  all_goals (intro h; first | rfl | exact Bool.noConfusion h)

theorem compareUrlSpecs_inv (pA pB : ParsedVersionSpecifier) :
    (compareUrlSpecs pA pB).equivalent = true →
    isEquivalentRelation (compareUrlSpecs pA pB).relation = true := by
  unfold compareUrlSpecs
  repeat' split
  all_goals (intro h; first | rfl | exact Bool.noConfusion h)

theorem compareAliasSpecs_inv (recur : String → String → SpecifierComparison)
    (hrec : ∀ x y, (recur x y).equivalent = true →
      isEquivalentRelation (recur x y).relation = true)
    (pA pB : ParsedVersionSpecifier) :
    (compareAliasSpecs recur pA pB).equivalent = true →
    isEquivalentRelation (compareAliasSpecs recur pA pB).relation = true := by
  unfold compareAliasSpecs
  repeat' split
  all_goals first
    | exact hrec _ _
    | (intro h; exact Bool.noConfusion h)

/-- One unfolding of the comparator preserves the invariant. -/
theorem compareOnce_inv (O : SemverOracle) (N : NpaOracle) (pfuel : Nat)
    (recur : String → String → SpecifierComparison)
    (a b : String) (whereDir : Option String)
    (hrec : ∀ x y, (recur x y).equivalent = true →
      isEquivalentRelation (recur x y).relation = true) :
    (compareOnce O N pfuel recur a b whereDir).equivalent = true →
    isEquivalentRelation (compareOnce O N pfuel recur a b whereDir).relation = true := by
  unfold compareOnce
  dsimp only
  repeat' split
  all_goals first
    | exact compareWorkspaceSpecs_inv _ _
    | exact compareAliasSpecs_inv recur hrec _ _
    | exact compareSemverSpecs_inv O _ _
    | exact compareGitSpecs_inv O _ _
    | exact compareFileSpecs_inv _ _
    | exact compareTagSpecs_inv _ _
    | exact compareUrlSpecs_inv _ _
    | (intro h; first | rfl | exact Bool.noConfusion h)

/-- C6: whenever `compareVersionSpecifiers` answers `equivalent = true`,
its relation is one of `identical`, `normalized-equal`,
`semantically-equal`, `same-major-caret`, `same-minor-tilde` — on every
return path (git, file, tag, url, workspace and alias branches included),
for every oracle behaviour and every input. -/
theorem compareVersionSpecifiers_equivalent_relation_invariant
    (O : SemverOracle) (N : NpaOracle) (pfuel cfuel : Nat) (specA specB : String)
    (whereDir : Option String)
    (h : (compareVersionSpecifiers O N pfuel cfuel specA specB whereDir).equivalent = true) :
    isEquivalentRelation
      (compareVersionSpecifiers O N pfuel cfuel specA specB whereDir).relation = true := by
  induction cfuel generalizing specA specB with
  | zero =>
    simp only [compareVersionSpecifiers] at h ⊢
    exact compareOnce_inv O N pfuel _ specA specB whereDir
      (fun x y hx => Bool.noConfusion hx) h
  | succ n ih =>
    simp only [compareVersionSpecifiers] at h ⊢
    exact compareOnce_inv O N pfuel _ specA specB whereDir (fun x y => ih x y) h

theorem compareVersionSpecifiers_equivalent_relation_invariant_witness :
    (compareVersionSpecifiers semverC npaC 1 1 "^1.2.3" "^1.2.4" none).equivalent = true
    ∧ isEquivalentRelation
        (compareVersionSpecifiers semverC npaC 1 1 "^1.2.3" "^1.2.4" none).relation = true :=
  ⟨by decide,
   compareVersionSpecifiers_equivalent_relation_invariant semverC npaC 1 1 "^1.2.3" "^1.2.4"
     none (by decide)⟩

end NpmNeedsPublish
